import Mathlib

/-!
# Verification of the figma-antd-mcp code pipeline

This file gives a shallow embedding, in Lean 4, of the four core components of
the repository (Figma parser, mapping engine / code generator, code synthesizer
and static validator), translated from the TypeScript sources:

* `src/parsers/figma-parser.ts`  (`FigmaParser.colorToHex`, `FigmaParser.extractLayout`)
* `src/generators/code-generator.ts` (`CodeGenerator`)
* `src/validators/code-validator.ts` (`CodeValidator` and its rules)
* `src/utils/index.ts` (the in-repo `prettier` mock)

Modelling conventions:
* JavaScript numbers are modelled as `ℚ` (geometry, weights that participate in
  comparisons) or `ℤ` (accumulated confidence scores); all arithmetic performed
  by the translated code is exact integer/rational arithmetic, so no
  floating-point rounding is observable on the inputs considered.
* JavaScript truthiness of optional strings / numbers / arrays is modelled
  explicitly (`none`, `some ""`, `some 0` and `some []` are falsy).
* `Array.prototype.sort` is stable (ECMAScript 2019); it is modelled by a
  stable insertion sort on the comparator's key.
* Exceptions and `try`/`catch` are modelled with `Except`.
-/

namespace FigmaAntd

/-! ## JavaScript string primitives -/

/-- JS `String.prototype.includes`: substring containment. -/
def jsIncludes (s sub : String) : Bool :=
  decide (sub.data <:+: s.data)

/-- JS `String.prototype.toLowerCase` (ASCII range, which is all the source uses). -/
def jsToLower (s : String) : String :=
  String.mk (s.data.map Char.toLower)

/-- JS `String.prototype.startsWith`. -/
def jsStartsWith (s pre : String) : Bool :=
  pre.data.isPrefixOf s.data

/-- JS `String.prototype.endsWith`. -/
def jsEndsWith (s suf : String) : Bool :=
  suf.data.isSuffixOf s.data

/-- Truthiness of a JS optional string (`undefined` and `""` are falsy). -/
def truthyStr : Option String → Bool
  | none => false
  | some s => !(s = "")

/-- Truthiness of a JS optional number (`undefined` and `0` are falsy). -/
def truthyNum : Option ℚ → Bool
  | none => false
  | some q => !(q = 0)

/-- Truthiness of `xs?.length` for a JS optional array
(`undefined` and an empty array give a falsy length). -/
def truthyLen {α : Type} : Option (List α) → Bool
  | none => false
  | some l => !l.isEmpty

/-- JS `\s` (the ASCII part, which covers every character the pipeline
produces). -/
def jsIsSpace (c : Char) : Bool :=
  c = ' ' || c = '\t' || c = '\n' || c = '\r' || c = '\x0b' || c = '\x0c'

/-- JS `\w`: `[A-Za-z0-9_]`. -/
def isWordChar (c : Char) : Bool := c.isAlphanum || c = '_'

/-- Length of the maximal prefix satisfying `p` (the extent of a greedy
character-class quantifier). -/
def countWhile (p : Char → Bool) : List Char → ℕ
  | [] => 0
  | c :: cs => if p c then countWhile p cs + 1 else 0

/-- JS `String.prototype.split` on a single character. -/
def splitOnChar (sep : Char) : List Char → List (List Char)
  | [] => [[]]
  | c :: cs =>
    let r := splitOnChar sep cs
    if c = sep then [] :: r
    else
      match r with
      | h :: t => (c :: h) :: t
      | [] => [[c]]

/-- JS `code.split('\n')`. -/
def jsSplitLines (s : String) : List String :=
  (splitOnChar '\n' s.data).map String.mk

/-- JS `String.prototype.trim` (ASCII whitespace). -/
def jsTrim (s : String) : String :=
  String.mk (((s.data.dropWhile jsIsSpace).reverse.dropWhile jsIsSpace).reverse)

/-! ## `FigmaParser.colorToHex` (src/parsers/figma-parser.ts)

```ts
private colorToHex(color: { r: number; g: number; b: number; a?: number }): string {
  const r = Math.round(color.r * 255);
  ...
  const hex = '#' + [r, g, b].map(x => {
    const hex = x.toString(16);
    return hex.length === 1 ? '0' + hex : hex;
  }).join('');
  return hex;
}
``` -/

/-- A Figma color: normalized float channels.  The optional alpha channel is
carried but never read by `colorToHex`. -/
structure FigmaColor where
  r : ℚ
  g : ℚ
  b : ℚ
  a : Option ℚ := none
deriving DecidableEq

/-- JS `Math.round`: round half toward positive infinity. -/
def jsRound (q : ℚ) : ℤ := ⌊q + 1/2⌋

/-- Base-16 digit printing with explicit fuel (structural recursion so that the
kernel can evaluate it; `fuel = n + 1` always suffices since the hex digit
count of `n` is at most `n + 1`). -/
def natToHexFuel : ℕ → ℕ → List Char
  | 0, _ => []
  | fuel + 1, n =>
    if n < 16 then [Nat.digitChar n]
    else natToHexFuel fuel (n / 16) ++ [Nat.digitChar (n % 16)]

/-- JS `Number.prototype.toString(16)` for naturals: lowercase hex digits,
no leading zeros. -/
def natToHex (n : ℕ) : List Char := natToHexFuel (n + 1) n

/-- JS `Number.prototype.toString(16)` for (round-result) integers. -/
def intToHex (i : ℤ) : String :=
  if i < 0 then "-" ++ String.mk (natToHex i.natAbs)
  else String.mk (natToHex i.toNat)

/-- The per-channel body of `colorToHex`'s `.map`: hex digits of
`Math.round(x * 255)`, left-padded to two digits. -/
def channelHex (c : ℚ) : String :=
  let hex := intToHex (jsRound (c * 255))
  if hex.length = 1 then "0" ++ hex else hex

/-- `FigmaParser.colorToHex`, translated from src/parsers/figma-parser.ts. -/
def colorToHex (color : FigmaColor) : String :=
  "#" ++ String.join ([color.r, color.g, color.b].map channelHex)

/-! ## `FigmaParser.extractLayout` (src/parsers/figma-parser.ts) -/

/-- A Figma `absoluteBoundingBox`. -/
structure Rect where
  x : ℚ
  y : ℚ
  width : ℚ
  height : ℚ
deriving DecidableEq

/-- A Figma `constraints` record. -/
structure NodeConstraints where
  horizontal : String
  vertical : String
deriving DecidableEq

/-- `LayoutInfo` from src/parsers/figma-parser.ts.  The declared fields
`padding`, `margin`, `justifyContent`, `alignItems` and `gap` are never
assigned anywhere in the source and are omitted. -/
structure LayoutInfo where
  width : ℚ
  height : ℚ
  x : ℚ
  y : ℚ
  constraints : Option NodeConstraints := none
  flexDirection : Option String := none
deriving DecidableEq

/-- The part of a raw Figma node (src/types/figma.ts) consulted by
`FigmaParser.extractLayout`: kind tag, children, geometry and constraints.
The many other declared fields (fills, strokes, effects, characters, ...) are
not read by `extractLayout` and are omitted from this embedding. -/
inductive FigmaNode where
  | mk (id : String) (name : String) (type : String)
       (children : Option (List FigmaNode))
       (absoluteBoundingBox : Option Rect)
       (constraints : Option NodeConstraints)

def FigmaNode.id : FigmaNode → String
  | .mk i _ _ _ _ _ => i

def FigmaNode.name : FigmaNode → String
  | .mk _ n _ _ _ _ => n

def FigmaNode.type : FigmaNode → String
  | .mk _ _ t _ _ _ => t

def FigmaNode.children : FigmaNode → Option (List FigmaNode)
  | .mk _ _ _ c _ _ => c

def FigmaNode.absoluteBoundingBox : FigmaNode → Option Rect
  | .mk _ _ _ _ b _ => b

def FigmaNode.constraints : FigmaNode → Option NodeConstraints
  | .mk _ _ _ _ _ c => c

/-- `FigmaParser.extractLayout`, translated from src/parsers/figma-parser.ts:
geometry defaults to zero when the bounding box is absent, and for
FRAME/COMPONENT nodes with more than one child whose first two children both
have bounding boxes, the flex direction is inferred by comparing the absolute
deltas of the first two children's positions (`row` when the vertical delta is
smaller than the horizontal one). -/
def extractLayout (node : FigmaNode) : LayoutInfo :=
  let base : LayoutInfo :=
    { width := (node.absoluteBoundingBox.map Rect.width).getD 0
      height := (node.absoluteBoundingBox.map Rect.height).getD 0
      x := (node.absoluteBoundingBox.map Rect.x).getD 0
      y := (node.absoluteBoundingBox.map Rect.y).getD 0
      constraints := node.constraints }
  if node.type = "FRAME" ∨ node.type = "COMPONENT" then
    match node.children with
    | some children =>
      if children.length > 1 then
        match children with
        | firstChild :: secondChild :: _ =>
          match firstChild.absoluteBoundingBox, secondChild.absoluteBoundingBox with
          | some b1, some b2 =>
            let isHorizontal : Bool := abs (b1.y - b2.y) < abs (b1.x - b2.x)
            let fd : Option String := some (if isHorizontal then "row" else "column")
            { base with flexDirection := fd }
          | _, _ => base
        | _ => base
      else base
    | none => base
  else base

/-! ## Mapping engine (`CodeGenerator`, src/generators/code-generator.ts)

Data model: `ParsedComponent` from src/parsers/figma-parser.ts, and
`ComponentMapping` / `MappingRule` from src/types/antd.ts. -/

/-- A scalar JS value stored in a `ComponentProperty` (`value: any`; the parser
only ever stores booleans, numbers and strings there). -/
inductive JsonVal where
  | b (v : Bool)
  | n (v : ℚ)
  | s (v : String)
deriving DecidableEq

/-- `ComponentProperty` from src/parsers/figma-parser.ts. -/
structure ComponentProperty where
  name : String
  value : JsonVal
  type : String
deriving DecidableEq

/-- `ShadowInfo` from src/parsers/figma-parser.ts. -/
structure ShadowInfo where
  type : String
  color : String
  x : ℚ
  y : ℚ
  blur : ℚ
  spread : Option ℚ := none
deriving DecidableEq

/-- `FillInfo` from src/parsers/figma-parser.ts (the `gradient` field is never
consulted by the generator and is omitted). -/
structure FillInfo where
  type : String
  color : Option String := none
  opacity : Option ℚ := none
deriving DecidableEq

/-- `StylingInfo` from src/parsers/figma-parser.ts.  Optional fields model JS
`undefined`. -/
structure StylingInfo where
  backgroundColor : Option String := none
  borderColor : Option String := none
  borderWidth : Option ℚ := none
  borderRadius : Option ℚ := none
  opacity : Option ℚ := none
  shadows : Option (List ShadowInfo) := none
  fills : Option (List FillInfo) := none
deriving DecidableEq

/-- `ContentInfo` from src/parsers/figma-parser.ts. -/
structure ContentInfo where
  text : Option String := none
  fontFamily : Option String := none
  fontSize : Option ℚ := none
  fontWeight : Option ℚ := none
  textAlign : Option String := none
  textColor : Option String := none
deriving DecidableEq

/-- `ParsedComponent` from src/parsers/figma-parser.ts.  In the source
`children` is an optional array; an absent array and an empty array are
indistinguishable at every consultation site (`children && children.length > 1`
— an empty JS array is truthy but fails the length test — and the iteration in
`processComponent`), so it is embedded as a plain list. -/
inductive ParsedComponent where
  | mk (id : String) (name : String) (type : String)
       (properties : List ComponentProperty)
       (children : List ParsedComponent)
       (layout : LayoutInfo)
       (styling : StylingInfo)
       (content : Option ContentInfo)

def ParsedComponent.id : ParsedComponent → String
  | .mk i _ _ _ _ _ _ _ => i

def ParsedComponent.name : ParsedComponent → String
  | .mk _ n _ _ _ _ _ _ => n

def ParsedComponent.type : ParsedComponent → String
  | .mk _ _ t _ _ _ _ _ => t

def ParsedComponent.properties : ParsedComponent → List ComponentProperty
  | .mk _ _ _ p _ _ _ _ => p

def ParsedComponent.children : ParsedComponent → List ParsedComponent
  | .mk _ _ _ _ c _ _ _ => c

def ParsedComponent.layout : ParsedComponent → LayoutInfo
  | .mk _ _ _ _ _ l _ _ => l

def ParsedComponent.styling : ParsedComponent → StylingInfo
  | .mk _ _ _ _ _ _ s _ => s

def ParsedComponent.content : ParsedComponent → Option ContentInfo
  | .mk _ _ _ _ _ _ _ c => c

/-- `MappingRule` from src/types/antd.ts. -/
structure MappingRule where
  condition : String
  action : String
  weight : ℤ
deriving DecidableEq

/-- `ComponentMapping` from src/types/antd.ts. -/
structure ComponentMapping where
  figmaType : String
  figmaName : Option String := none
  antdComponent : String
  confidence : ℤ
  rules : List MappingRule
deriving DecidableEq

/-- `CodeGenerator.initializeComponentMappings`: the registry of mapping rule
entries, registered once at start-up in this fixed order. -/
def componentMappings : List ComponentMapping :=
  [ -- Button mappings
    { figmaType := "COMPONENT"
      figmaName := some "button"
      antdComponent := "Button"
      confidence := 0
      rules :=
        [ { condition := "name_contains_button", action := "increase_confidence", weight := 50 }
        , { condition := "has_text_content", action := "increase_confidence", weight := 20 }
        , { condition := "clickable_appearance", action := "increase_confidence", weight := 30 } ] }
  , -- Input mappings
    { figmaType := "FRAME"
      figmaName := some "input"
      antdComponent := "Input"
      confidence := 0
      rules :=
        [ { condition := "name_contains_input", action := "increase_confidence", weight := 50 }
        , { condition := "has_border", action := "increase_confidence", weight := 20 }
        , { condition := "rectangular_shape", action := "increase_confidence", weight := 15 } ] }
  , -- Card mappings
    { figmaType := "FRAME"
      figmaName := some "card"
      antdComponent := "Card"
      confidence := 0
      rules :=
        [ { condition := "name_contains_card", action := "increase_confidence", weight := 50 }
        , { condition := "has_background", action := "increase_confidence", weight := 20 }
        , { condition := "has_shadow", action := "increase_confidence", weight := 25 }
        , { condition := "contains_multiple_elements", action := "increase_confidence", weight := 15 } ] }
  , -- Text/Typography mappings
    { figmaType := "TEXT"
      figmaName := none
      antdComponent := "Typography.Text"
      confidence := 0
      rules :=
        [ { condition := "is_text_node", action := "increase_confidence", weight := 80 }
        , { condition := "small_font_size", action := "prefer_text", weight := 20 } ] }
  , -- Default fallback
    { figmaType := "FRAME"
      figmaName := none
      antdComponent := "div"
      confidence := 0
      rules :=
        [ { condition := "is_container", action := "use_div", weight := 10 } ] } ]

/-- `CodeGenerator.evaluateRule`: string-keyed condition dispatch.  Unknown
condition strings (including `clickable_appearance`, `small_font_size` and
`is_container`, which appear in the registry but have no case) fall through to
the `default` branch and evaluate to `false`. -/
def evaluateRule (rule : MappingRule) (figmaNode : ParsedComponent) : Bool :=
  if rule.condition = "name_contains_button" then
    jsIncludes (jsToLower figmaNode.name) "button"
  else if rule.condition = "name_contains_input" then
    jsIncludes (jsToLower figmaNode.name) "input"
  else if rule.condition = "name_contains_card" then
    jsIncludes (jsToLower figmaNode.name) "card"
  else if rule.condition = "has_text_content" then
    truthyStr (figmaNode.content.bind ContentInfo.text)
  else if rule.condition = "has_border" then
    truthyNum figmaNode.styling.borderWidth
  else if rule.condition = "has_background" then
    truthyStr figmaNode.styling.backgroundColor || truthyLen figmaNode.styling.fills
  else if rule.condition = "has_shadow" then
    truthyLen figmaNode.styling.shadows
  else if rule.condition = "is_text_node" then
    figmaNode.type = "TEXT"
  else if rule.condition = "rectangular_shape" then
    figmaNode.layout.width > figmaNode.layout.height
  else if rule.condition = "contains_multiple_elements" then
    figmaNode.children.length > 1
  else
    false

/-- The confidence accumulated by `CodeGenerator.getComponentMapping` for one
registry entry: `+30` for a kind-tag match, `+40` for a (lowercased)
name-substring match, plus the weight of every rule whose condition evaluates
to true. -/
def entryScore (figmaNode : ParsedComponent) (mapping : ComponentMapping) : ℤ :=
  let c0 : ℤ := 0
  let c1 := if mapping.figmaType = figmaNode.type then c0 + 30 else c0
  let c2 :=
    if truthyStr mapping.figmaName &&
       jsIncludes (jsToLower figmaNode.name) (mapping.figmaName.getD "") then c1 + 40 else c1
  mapping.rules.foldl (fun acc rule => if evaluateRule rule figmaNode then acc + rule.weight else acc) c2

/-- The candidate list built by the loop in `CodeGenerator.getComponentMapping`,
in registration order: entries whose accumulated confidence exceeds the fixed
threshold 20, with the stored confidence capped at 100. -/
def candidateMappings (figmaNode : ParsedComponent) : List ComponentMapping :=
  componentMappings.filterMap fun mapping =>
    let confidence := entryScore figmaNode mapping
    if confidence > 20 then some { mapping with confidence := min confidence 100 } else none

/-- Stable descending insertion by confidence: `x` is placed before the first
element whose confidence is not larger.  Inserting elements from the right,
this reproduces the (stable, ECMAScript 2019) behaviour of
`mappings.sort((a, b) => b.confidence - a.confidence)`. -/
def insertByConfidenceDesc (x : ComponentMapping) : List ComponentMapping → List ComponentMapping
  | [] => [x]
  | y :: ys =>
    if y.confidence ≤ x.confidence then x :: y :: ys
    else y :: insertByConfidenceDesc x ys

/-- Stable sort, descending by confidence (the JS
`sort((a, b) => b.confidence - a.confidence)`). -/
def sortByConfidenceDesc : List ComponentMapping → List ComponentMapping
  | [] => []
  | x :: xs => insertByConfidenceDesc x (sortByConfidenceDesc xs)

/-- `CodeGenerator.getComponentMapping`: score every registered entry, keep
those above the threshold, and sort by confidence (descending, stable). -/
def getComponentMapping (figmaNode : ParsedComponent) : List ComponentMapping :=
  sortByConfidenceDesc (candidateMappings figmaNode)

/-! ## Code synthesizer (`CodeGenerator`, src/generators/code-generator.ts) -/

/-- An analyzed Ant Design component (src/types/antd.ts).  The generator only
ever consults the `name` field; the catalog metadata (display name, category,
props, usage, examples) flows through unchanged and is omitted here. -/
structure AntdComponent where
  name : String
deriving DecidableEq

/-- A value stored in a generated props map (`props: Record<string, any>`).
The generator only ever stores strings, booleans and one string-valued style
object there. -/
inductive PropValue where
  | s (v : String)
  | b (v : Bool)
  | obj (fields : List (String × String))
deriving DecidableEq

/-- A value stored in a generated inline-style map: a string or a number. -/
inductive StyleVal where
  | s (v : String)
  | n (v : ℚ)
deriving DecidableEq

/-- `ComponentStyling` from src/types/antd.ts (the generator only ever sets
the `style` field). -/
structure ComponentStyling where
  style : Option (List (String × StyleVal)) := none
deriving DecidableEq

/-- `GeneratedComponentConfig` from src/types/antd.ts.  In the source
`children` is an optional array that is `undefined` exactly when empty
(`children.length > 0 ? children : undefined`), and every consultation treats
`undefined` and `[]` alike, so it is embedded as a plain list. -/
inductive GeneratedComponentConfig where
  | mk (component : AntdComponent)
       (props : List (String × PropValue))
       (children : List GeneratedComponentConfig)
       (styling : ComponentStyling)

def GeneratedComponentConfig.component : GeneratedComponentConfig → AntdComponent
  | .mk c _ _ _ => c

def GeneratedComponentConfig.props : GeneratedComponentConfig → List (String × PropValue)
  | .mk _ p _ _ => p

def GeneratedComponentConfig.children : GeneratedComponentConfig → List GeneratedComponentConfig
  | .mk _ _ c _ => c

def GeneratedComponentConfig.styling : GeneratedComponentConfig → ComponentStyling
  | .mk _ _ _ s => s

/-- Rendering of a JS number inside a template string or `JSON.stringify`.
The generator only ever renders integral values on the inputs this file
evaluates; non-integral rationals are rendered as `num/den`, which no claim
depends on. -/
def ratToJs (q : ℚ) : String :=
  if q.den = 1 then toString q.num else toString q

/-- Joining with a separator (JS `Array.prototype.join`), kept structurally
recursive so that the kernel can evaluate it. -/
def joinWith (sep : String) : List String → String
  | [] => ""
  | [x] => x
  | x :: y :: xs => x ++ sep ++ joinWith sep (y :: xs)

/-- `JSON.stringify` of a string-valued object such as `\x7bdisplay: 'none'\x7d`. -/
def jsonOfStrObj (fields : List (String × String)) : String :=
  "\x7b" ++ joinWith "," (fields.map fun kv => "\"" ++ kv.1 ++ "\":\"" ++ kv.2 ++ "\"") ++ "\x7d"

/-- `JSON.stringify` of a generated prop value. -/
def jsonOfPropValue : PropValue → String
  | .s v => "\"" ++ v ++ "\""
  | .b v => cond v "true" "false"
  | .obj fields => jsonOfStrObj fields

/-- `JSON.stringify` of an inline-style map. -/
def jsonOfStyleMap (fields : List (String × StyleVal)) : String :=
  let renderVal : StyleVal → String
    | .s v => "\"" ++ v ++ "\""
    | .n q => ratToJs q
  "\x7b" ++ joinWith "," (fields.map fun kv => "\"" ++ kv.1 ++ "\":" ++ renderVal kv.2) ++ "\x7d"

/-- `CodeGenerator.generateProps`: derive Ant Design props from the parsed
component (text content, size tier from the height, button type from the
fills/border, and a display-suppressing style for invisible nodes). -/
def generateProps (figmaComponent : ParsedComponent) (antdComponent : AntdComponent) :
    List (String × PropValue) :=
  let props : List (String × PropValue) := []
  -- Handle text content (`if (figmaComponent.content?.text)`)
  let text := (figmaComponent.content.bind ContentInfo.text).getD ""
  let props :=
    if truthyStr (figmaComponent.content.bind ContentInfo.text) then
      if antdComponent.name = "Button" ∨ antdComponent.name = "Typography" then
        props ++ [("children", PropValue.s text)]
      else if antdComponent.name = "Input" then
        props ++ [("placeholder", PropValue.s text)]
      else props
    else props
  -- Handle size based on dimensions (`if (figmaComponent.layout)`: always an object)
  let props :=
    if antdComponent.name = "Button" then
      if figmaComponent.layout.height ≤ 24 then props ++ [("size", PropValue.s "small")]
      else if figmaComponent.layout.height ≥ 40 then props ++ [("size", PropValue.s "large")]
      else props ++ [("size", PropValue.s "middle")]
    else props
  -- Handle styling (`if (figmaComponent.styling)`: always an object)
  let props :=
    if antdComponent.name = "Button" then
      if (figmaComponent.styling.fills.getD []).any (fun fill => fill.type = "SOLID") then
        props ++ [("type", PropValue.s "primary")]
      else if truthyNum figmaComponent.styling.borderWidth then
        props ++ [("type", PropValue.s "default")]
      else props
    else props
  -- Handle visibility
  let props :=
    if figmaComponent.properties.any (fun p => p.name = "visible" && p.value = JsonVal.b false) then
      props ++ [("style", PropValue.obj [("display", "none")])]
    else props
  props

/-- `CodeGenerator.generateStyling`: collect the inline-style map (background,
border, radius, opacity, first box shadow), or no style when every field is
absent. -/
def generateStyling (component : ParsedComponent) : ComponentStyling :=
  let style : List (String × StyleVal) := []
  let style :=
    if truthyStr component.styling.backgroundColor then
      style ++ [("backgroundColor", StyleVal.s (component.styling.backgroundColor.getD ""))]
    else style
  let style :=
    if truthyStr component.styling.borderColor && truthyNum component.styling.borderWidth then
      style ++ [("border",
        StyleVal.s (ratToJs (component.styling.borderWidth.getD 0) ++ "px solid " ++
          component.styling.borderColor.getD ""))]
    else style
  let style :=
    if truthyNum component.styling.borderRadius then
      style ++ [("borderRadius", StyleVal.n (component.styling.borderRadius.getD 0))]
    else style
  let style :=
    match component.styling.opacity with
    | some o => style ++ [("opacity", StyleVal.n o)]
    | none => style
  let style :=
    match component.styling.shadows with
    | some (shadow :: _) =>
      style ++ [("boxShadow",
        StyleVal.s (ratToJs shadow.x ++ "px " ++ ratToJs shadow.y ++ "px " ++
          ratToJs shadow.blur ++ "px " ++ shadow.color))]
    | _ => style
  if style.length > 0 then { style := some style } else { style := none }

mutual

/-- `CodeGenerator.generateComponentJSX`: emit one component invocation with
its props (strings quoted, `true` as a bare flag, other values as embedded
JSON), the optional inline style, and either a self-closing tag or nested
text/child content. -/
def generateComponentJSX : GeneratedComponentConfig → ℕ → String
  | .mk comp props children styling, indent =>
    let spaces := String.mk (List.replicate indent ' ')
    let componentName := comp.name
    let attrs := props.foldl
      (fun acc kv =>
        if kv.1 = "children" then acc
        else
          match kv.2 with
          | PropValue.s v => acc ++ " " ++ kv.1 ++ "=\"" ++ v ++ "\""
          | PropValue.b v => if v then acc ++ " " ++ kv.1 else acc ++ " " ++ kv.1 ++ "=\x7bfalse\x7d"
          | PropValue.obj o => acc ++ " " ++ kv.1 ++ "=\x7b" ++ jsonOfStrObj o ++ "\x7d")
      ("" : String)
    let styleAttr :=
      match styling.style with
      | some st => " style=\x7b" ++ jsonOfStyleMap st ++ "\x7d"
      | none => ""
    let textChild :=
      match props.lookup "children" with
      | some (PropValue.s t) => if t = "" then none else some t
      | _ => none
    let hasTextChildren := textChild.isSome
    let hasComponentChildren := !children.isEmpty
    let jsx := spaces ++ "<" ++ componentName ++ attrs ++ styleAttr
    if hasTextChildren || hasComponentChildren then
      jsx ++ ">" ++ (textChild.getD "") ++
        (if hasComponentChildren then "\n" ++ generateJSXList children (indent + 2) ++ spaces else "") ++
        "</" ++ componentName ++ ">\n"
    else
      jsx ++ " />\n"

/-- Sequential emission of a list of child configurations. -/
def generateJSXList : List GeneratedComponentConfig → ℕ → String
  | [], _ => ""
  | c :: cs, indent => generateComponentJSX c indent ++ generateJSXList cs indent

end

mutual

/-- The name-collection pass of `CodeGenerator.generateImportStatements`
(depth-first, before deduplication). -/
def collectComponentNames : GeneratedComponentConfig → List String
  | .mk comp _ children _ => comp.name :: collectComponentNamesList children

def collectComponentNamesList : List GeneratedComponentConfig → List String
  | [] => []
  | c :: cs => collectComponentNames c ++ collectComponentNamesList cs

end

/-- First-occurrence deduplication (JS `Set` insertion semantics). -/
def dedupFirst (l : List String) : List String :=
  l.foldl (fun acc n => if n ∈ acc then acc else acc ++ [n]) []

/-- Lexicographic comparison of strings by code unit, as used by the default
JS `Array.prototype.sort` on ASCII component names. -/
def charListLe : List Char → List Char → Bool
  | [], _ => true
  | _ :: _, [] => false
  | a :: as, b :: bs => if a < b then true else if b < a then false else charListLe as bs

def strLe (a b : String) : Bool := charListLe a.data b.data

def insertStrSorted (x : String) : List String → List String
  | [] => [x]
  | y :: ys => if strLe x y then x :: y :: ys else y :: insertStrSorted x ys

/-- JS `Array.from(set).sort()` on ASCII strings. -/
def sortStrings : List String → List String
  | [] => []
  | x :: xs => insertStrSorted x (sortStrings xs)

/-- `CodeGenerator.generateImportStatements`: one React import plus one
grouped, alphabetized antd import. -/
def generateImportStatements (configs : List GeneratedComponentConfig) : String :=
  let antdComponents := sortStrings (dedupFirst (collectComponentNamesList configs))
  let line1 := "import React from 'react';"
  let line2 := "import \x7b " ++ joinWith ", " antdComponents ++ " \x7d from 'antd';"
  line1 ++ "\n" ++ line2

/-- `outputFormat: 'typescript' | 'javascript'`. -/
inductive OutputFormat where
  | typescript
  | javascript
deriving DecidableEq

/-- `CodeGenerator.generateReactCode`: the full component module text (the
`includeStyles` parameter is accepted but never consulted by the source). -/
def generateReactCode (componentName : String) (configs : List GeneratedComponentConfig)
    (outputFormat : OutputFormat) (_includeStyles : Bool) : String :=
  let imports := generateImportStatements configs
  let typeAnnotations := if outputFormat = OutputFormat.typescript then ": React.FC" else ""
  let header := imports ++ "\n\n"
  let header := header ++
    (if outputFormat = OutputFormat.typescript then
      "interface " ++ componentName ++ "Props \x7b\x7d\n\n" else "")
  let header := header ++ "const " ++ componentName ++ typeAnnotations ++ " = (" ++
    (if outputFormat = OutputFormat.typescript then "props: " ++ componentName ++ "Props" else "") ++
    ") => \x7b\n"
  let body := "  return (\n" ++ "    <div>\n" ++ generateJSXList configs 6 ++
    "    </div>\n" ++ "  );\n" ++ "\x7d;\n\n"
  header ++ body ++ "export default " ++ componentName ++ ";"

/-- `CodeGenerator.generateImports`. -/
def generateImports (_configs : List GeneratedComponentConfig) (outputFormat : OutputFormat) :
    List String :=
  if outputFormat = OutputFormat.typescript then ["react", "antd", "@types/react"]
  else ["react", "antd"]

/-- One step of the line loop in `formatCode` (src/utils/index.ts, the in-repo
`prettier` mock, invoked by `CodeGenerator.formatCode` with `tabWidth = 2`). -/
def prettierLineStep (acc : List String × ℕ) (line : String) : List String × ℕ :=
  let (outLines, indentLevel) := acc
  let l := jsTrim line
  if l = "" then (outLines ++ [""], indentLevel)
  else
    let level1 :=
      if jsStartsWith l "\x7d" || jsStartsWith l "]" || jsStartsWith l ")" then
        indentLevel - 1
      else indentLevel
    let indented := String.mk (List.replicate (2 * level1) ' ') ++ l
    let level2 :=
      if jsEndsWith l "\x7b" || jsEndsWith l "[" || jsEndsWith l "(" then level1 + 1
      else level1
    let level3 :=
      if jsIncludes l "<" && !jsIncludes l "</" && !jsEndsWith l "/>" then
        if jsIncludes l ">" then (if !jsEndsWith l "/>" then level2 + 1 else level2) else level2
      else level2
    let level4 := if jsIncludes l "</" then level3 - 1 else level3
    (outLines ++ [indented], level4)

/-- `formatCode` from src/utils/index.ts: the repo's mock `prettier.format`
(line-trimmed re-indentation; `Math.max(0, level - 1)` is natural
subtraction). -/
def prettierFormat (code : String) : String :=
  let lines := jsSplitLines code
  let result := lines.foldl prettierLineStep ([], 0)
  joinWith "\n" result.1

/-- The part of the `generateErrorComponent` template before the interpolated
error message. -/
def errorComponentPre (componentName : String) (outputFormat : OutputFormat) : String :=
  let typeAnnotation := if outputFormat = OutputFormat.typescript then ": React.FC" else ""
  "import React from 'react';\n" ++
  "import \x7b Alert \x7d from 'antd';\n\n" ++
  "const " ++ componentName ++ typeAnnotation ++ " = () => \x7b\n" ++
  "  return (\n" ++
  "    <Alert\n" ++
  "      message=\"Component Generation Error\"\n" ++
  "      description=\""

/-- The part of the `generateErrorComponent` template after the interpolated
error message. -/
def errorComponentPost (componentName : String) : String :=
  "\"\n" ++
  "      type=\"error\"\n" ++
  "      showIcon\n" ++
  "    />\n" ++
  "  );\n" ++
  "\x7d;\n\n" ++
  "export default " ++ componentName ++ ";"

/-- `CodeGenerator.generateErrorComponent`: the fallback artifact, an antd
`Alert` whose description interpolates the error message. -/
def generateErrorComponent (componentName : String) (error : String)
    (outputFormat : OutputFormat) : String :=
  errorComponentPre componentName outputFormat ++ error ++ errorComponentPost componentName

/-- The catalog analyzer boundary (`AntdAnalyzer.analyzeComponents` followed by
taking element 0): `none` models an undefined catalog entry. -/
def AnalyzeFn : Type := String → Option AntdComponent

mutual

/-- `CodeGenerator.processComponent`: select the best mapping (head of the
candidate list), record it, resolve the catalog entry, synthesize props and
styling, and recurse into the children; an unmappable node or an unresolvable
catalog entry is dropped with a warning (`none`).  Returns the optional
configuration, the warnings pushed, and the mappings pushed, in source order. -/
def processComponent (analyze : String → Option AntdComponent) :
    ParsedComponent →
    Option GeneratedComponentConfig × List String × List ComponentMapping
  | .mk id name ty props children layout styling content =>
    let component : ParsedComponent := .mk id name ty props children layout styling content
    match getComponentMapping component with
    | [] => (none, ["No suitable Ant Design component found for: " ++ name], [])
    | bestMapping :: _ =>
      match analyze bestMapping.antdComponent with
      | none =>
        (none, ["Could not analyze Ant Design component: " ++ bestMapping.antdComponent],
         [bestMapping])
      | some antdComponent =>
        let genProps := generateProps component antdComponent
        let childResult := processComponentList analyze children
        (some (.mk antdComponent genProps childResult.1 (generateStyling component)),
         childResult.2.1, bestMapping :: childResult.2.2)

/-- `CodeGenerator.processComponents`: process a list of components, keeping
the successful configurations in order. -/
def processComponentList (analyze : String → Option AntdComponent) :
    List ParsedComponent →
    List GeneratedComponentConfig × List String × List ComponentMapping
  | [] => ([], [], [])
  | c :: cs =>
    let r := processComponent analyze c
    let rest := processComponentList analyze cs
    (r.1.toList ++ rest.1, r.2.1 ++ rest.2.1, r.2.2 ++ rest.2.2)

end

/-- `ParsedFigmaData` from src/parsers/figma-parser.ts (the generator only
consults `components`; the `file`, `styles` and `assets` fields flow through
unchanged and are omitted). -/
structure ParsedFigmaData where
  components : List ParsedComponent

/-- `GenerationConfig` from src/generators/code-generator.ts. -/
structure GenerationConfig where
  figmaData : ParsedFigmaData
  componentName : String
  outputFormat : OutputFormat
  includeStyles : Bool
  antdVersion : String

/-- `GenerationResult` from src/generators/code-generator.ts. -/
structure GenerationResult where
  code : String
  imports : List String
  dependencies : List String
  warnings : List String
  mappings : List ComponentMapping

/-- The `try` block of `CodeGenerator.generateComponent`, as an `Except`:
the only statement that can throw is the empty-components check (every other
step of the embedded pipeline is total), so the thrown message is modelled as
the `error` case. -/
def generateComponentCore (analyze : String → Option AntdComponent)
    (config : GenerationConfig) :
    Except String (String × List String × List String × List ComponentMapping) :=
  let rootComponents := config.figmaData.components
  if rootComponents.length = 0 then
    Except.error "No components found in Figma data"
  else
    let pr := processComponentList analyze rootComponents
    let componentCode :=
      generateReactCode config.componentName pr.1 config.outputFormat config.includeStyles
    let code := prettierFormat componentCode
    Except.ok (code, generateImports pr.1 config.outputFormat, pr.2.1, pr.2.2)

/-- `CodeGenerator.generateComponent`: total by construction — the `catch`
branch converts any thrown error into a warning plus the fallback error
component (the warnings list is empty at the only throw site, so the caught
result carries exactly the failure warning). -/
def generateComponent (analyze : String → Option AntdComponent)
    (config : GenerationConfig) : GenerationResult :=
  match generateComponentCore analyze config with
  | Except.ok r =>
    { code := r.1, imports := r.2.1, dependencies := ["react", "antd"],
      warnings := r.2.2.1, mappings := r.2.2.2 }
  | Except.error msg =>
    { code := generateErrorComponent config.componentName msg config.outputFormat,
      imports := ["React"], dependencies := ["react", "antd"],
      warnings := ["Code generation failed: " ++ msg], mappings := [] }

/-! ## Static validator (`CodeValidator`, src/validators/code-validator.ts)

The validator re-parses emitted source text by JS regular-expression
extraction.  Each extraction regex of the source is translated below into an
explicit matcher with the exact ECMAScript backtracking order (greedy
quantifiers try longest first, lazy quantifiers shortest first, alternatives
left to right), and a `RegExp.exec` scan loop that retries at each position
and resumes after each match. -/

/-- `1 +` the number of newlines before `pos`: the source computes a match's
line as `code.substring(0, match.index).split('\n').length`. -/
def lineOfPos (chars : List Char) (pos : ℕ) : ℕ :=
  (chars.take pos).count '\n' + 1

/-- The `while ((match = regex.exec(code)) !== null)` loop for a `/g` regex:
try the matcher at each position from left to right; on a match of `n`
consumed characters, record it with its start position and resume after it
(`max n 1` mirrors `lastIndex` always advancing; every matcher below consumes
at least one character).  Structured with explicit fuel (an upper bound on the
number of steps) so that the kernel can evaluate it; `fuel = length` always
suffices because every step consumes at least one character. -/
def scanAllFuel {M : Type} (f : List Char → Option (M × ℕ)) :
    ℕ → List Char → ℕ → List (M × ℕ)
  | 0, _, _ => []
  | _ + 1, [], _ => []
  | fuel + 1, c :: rest, pos =>
    match f (c :: rest) with
    | some (m, n) =>
      let step := max n 1
      (m, pos) :: scanAllFuel f fuel ((c :: rest).drop step) (pos + step)
    | none => scanAllFuel f fuel rest (pos + 1)

def scanAll {M : Type} (f : List Char → Option (M × ℕ)) (chars : List Char) :
    List (M × ℕ) :=
  scanAllFuel f chars.length chars 0

/-- `[n, n-1, ..., 0]`: the attempt order of a greedy quantifier that matched
`n` repetitions. -/
def downFrom : ℕ → List ℕ
  | 0 => [0]
  | n + 1 => (n + 1) :: downFrom n

/-- `[n, n-1, ..., 1]`: the attempt order of a greedy `+` quantifier. -/
def downFromTo1 : ℕ → List ℕ
  | 0 => []
  | n + 1 => (n + 1) :: downFromTo1 n

/-- Index of the first occurrence of `pat` as a prefix of a suffix of `l`
(the extent search of a lazy `[\s\S]*?` followed by a literal). -/
def findSubIdx (pat : List Char) : List Char → Option ℕ
  | [] => if pat.isEmpty then some 0 else none
  | c :: rest =>
    if pat.isPrefixOf (c :: rest) then some 0
    else (findSubIdx pat rest).map (· + 1)

/-! ### The JSX extraction regex

`/<(\w+)(?:\s+[^>]*)?(?:\s*\/>|>[\s\S]*?<\/\1>)/g` from
`CodeValidator.extractJSX`.  Notes on the translation:
* `\w+` only succeeds with its maximal extent: a shorter extent leaves a word
  character next, on which `\s+`, `\s*\/` and `>` all fail.
* in the first alternative `\s*\/>`, only the maximal extent of `\s*` can be
  followed by `/`.
* the second alternative is a lazy scan to the first `</tag>`. -/

/-- The tail `(?:\s*\/>|>[\s\S]*?<\/tag>)`; returns the number of characters
consumed. -/
def tryAltJSX (tag : List Char) (b : List Char) : Option ℕ :=
  let ws := countWhile jsIsSpace b
  if ['/', '>'].isPrefixOf (b.drop ws) then some (ws + 2)
  else if b.take 1 = ['>'] then
    match findSubIdx ('<' :: '/' :: (tag ++ ['>'])) (b.drop 1) with
    | some r => some (1 + r + (2 + tag.length + 1))
    | none => none
  else none

/-- The tail `(?:\s+[^>]*)?(?:\s*\/>|>[\s\S]*?<\/tag>)` with the greedy
backtracking order: group present with `\s+` longest first and `[^>]*` longest
first, then group absent. -/
def matchAfterTag (tag : List Char) (a : List Char) : Option ℕ :=
  let ws := countWhile jsIsSpace a
  let groupAttempt := (downFromTo1 ws).findSome? fun j =>
    let b := a.drop j
    let nm := countWhile (fun c => !(c = '>')) b
    (downFrom nm).findSome? fun m =>
      (tryAltJSX tag (b.drop m)).map fun c => j + m + c
  match groupAttempt with
  | some c => some c
  | none => tryAltJSX tag a

/-- One attempt of the JSX regex at the start of `l`: returns
`((tagName, fullMatch), consumed)`. -/
def matchJSXAt (l : List Char) : Option ((String × String) × ℕ) :=
  if l.take 1 = ['<'] then
    let rest := l.drop 1
    let wlen := countWhile isWordChar rest
    if wlen = 0 then none
    else
      let tag := rest.take wlen
      match matchAfterTag tag (rest.drop wlen) with
      | some consumedAfter =>
        let total := 1 + wlen + consumedAfter
        some ((String.mk tag, String.mk (l.take total)), total)
      | none => none
  else none

/-- `JSXInfo` from src/validators/code-validator.ts. -/
structure JSXInfo where
  tagName : String
  fullMatch : String
  line : ℕ
  isAntdComponent : Bool
deriving DecidableEq

/-- `CodeValidator.extractJSX`, parameterized by the validator's loaded antd
component-name set. -/
def extractJSX (antdSet : List String) (code : String) : List JSXInfo :=
  (scanAll matchJSXAt code.data).map fun x =>
    { tagName := x.1.1
      fullMatch := x.1.2
      line := lineOfPos code.data x.2
      isAntdComponent := antdSet.contains x.1.1 }

/-! ### The import extraction regex

`/import\s+(?:{([^}]+)}|\*\s+as\s+(\w+)|(\w+))\s+from\s+['"]([^'"]+)['"]/g`
from `CodeValidator.extractImports`.  The three alternatives start with
distinct first characters, so the alternation order is immaterial; within each,
the greedy classes exclude their terminator, so only the maximal extents can
succeed. -/

/-- `ImportInfo` from src/validators/code-validator.ts. -/
structure ImportInfo where
  source : String
  defaultImport : Option String := none
  namedImports : List String := []
  namespaceImport : Option String := none
  line : ℕ
deriving DecidableEq

/-- One attempt of the import regex at the start of `l`.  Captures
`(namedImports group, namespaceImport, defaultImport, source)`. -/
def matchImportAt (l : List Char) :
    Option ((Option String × Option String × Option String × String) × ℕ) :=
  if ("import".data).isPrefixOf l then
    let a := l.drop 6
    let ws := countWhile jsIsSpace a
    if ws = 0 then none else
    let b := a.drop ws
    let groupRes : Option ((Option String × Option String × Option String) × ℕ) :=
      match b with
      | '\x7b' :: b1 =>
        let clen := countWhile (fun c => !(c = '\x7d')) b1
        if clen = 0 then none
        else if ['\x7d'].isPrefixOf (b1.drop clen) then
          some ((some (String.mk (b1.take clen)), none, none), 1 + clen + 1)
        else none
      | '*' :: b1 =>
        let ws2 := countWhile jsIsSpace b1
        if ws2 = 0 then none else
        let b2 := b1.drop ws2
        if ['a', 's'].isPrefixOf b2 then
          let b3 := b2.drop 2
          let ws3 := countWhile jsIsSpace b3
          if ws3 = 0 then none else
          let b4 := b3.drop ws3
          let wlen := countWhile isWordChar b4
          if wlen = 0 then none
          else some ((none, some (String.mk (b4.take wlen)), none), 1 + ws2 + 2 + ws3 + wlen)
        else none
      | _ =>
        let wlen := countWhile isWordChar b
        if wlen = 0 then none
        else some ((none, none, some (String.mk (b.take wlen))), wlen)
    match groupRes with
    | none => none
    | some (caps, gconsumed) =>
      let c := b.drop gconsumed
      let ws1 := countWhile jsIsSpace c
      if ws1 = 0 then none else
      let c1 := c.drop ws1
      if (['f', 'r', 'o', 'm'] : List Char).isPrefixOf c1 then
        let c2 := c1.drop 4
        let ws2 := countWhile jsIsSpace c2
        if ws2 = 0 then none else
        match c2.drop ws2 with
        | q :: c3 =>
          if q = '\'' || q = '"' then
            let slen := countWhile (fun ch => !(ch = '\'') && !(ch = '"')) c3
            if slen = 0 then none else
            match c3.drop slen with
            | q2 :: _ =>
              if q2 = '\'' || q2 = '"' then
                some ((caps.1, caps.2.1, caps.2.2, String.mk (c3.take slen)),
                  6 + ws + gconsumed + ws1 + 4 + ws2 + 1 + slen + 1)
              else none
            | [] => none
          else none
        | [] => none
      else none
  else none

/-- `CodeValidator.extractImports`. -/
def extractImports (code : String) : List ImportInfo :=
  (scanAll matchImportAt code.data).map fun x =>
    { source := x.1.2.2.2
      defaultImport := x.1.2.2.1
      namedImports :=
        match x.1.1 with
        | some s => ((splitOnChar ',' s.data).map String.mk).map jsTrim
        | none => []
      namespaceImport := x.1.2.1
      line := lineOfPos code.data x.2 }

/-! ### The function-component extraction regex

`/const\s+(\w+).*?=\s*\([^)]*\)\s*=>\s*{/g` from
`CodeValidator.extractComponents`.  `.` does not match newlines; the lazy
`.*?` tries extents shortest first; each greedy `\s*`/`[^)]*` admits only its
maximal extent (the next pattern character is excluded from the class). -/

/-- The deterministic tail `=\s*\([^)]*\)\s*=>\s*{`. -/
def matchArrowTail (d : List Char) : Option ℕ :=
  match d with
  | '=' :: d1 =>
    let ws1 := countWhile jsIsSpace d1
    match d1.drop ws1 with
    | '(' :: d2 =>
      let plen := countWhile (fun ch => !(ch = ')')) d2
      match d2.drop plen with
      | ')' :: d3 =>
        let ws2 := countWhile jsIsSpace d3
        if (['=', '>'] : List Char).isPrefixOf (d3.drop ws2) then
          let d4 := (d3.drop ws2).drop 2
          let ws3 := countWhile jsIsSpace d4
          match d4.drop ws3 with
          | '\x7b' :: _ => some (1 + ws1 + 1 + plen + 1 + ws2 + 2 + ws3 + 1)
          | _ => none
        else none
      | _ => none
    | _ => none
  | _ => none

/-- One attempt of the function-component regex at the start of `l`: returns
`(captured name, consumed)`. -/
def matchFuncComponentAt (l : List Char) : Option (String × ℕ) :=
  if ("const".data).isPrefixOf l then
    let a := l.drop 5
    let ws := countWhile jsIsSpace a
    if ws = 0 then none else
    let b := a.drop ws
    let wlen := countWhile isWordChar b
    if wlen = 0 then none else
    let name := String.mk (b.take wlen)
    let c := b.drop wlen
    let lim := countWhile (fun ch => !(ch = '\n')) c
    match (List.range (lim + 1)).findSome?
        (fun r => (matchArrowTail (c.drop r)).map fun t => r + t) with
    | some tailConsumed => some (name, 5 + ws + wlen + tailConsumed)
    | none => none
  else none

/-- `ComponentInfo` from src/validators/code-validator.ts. -/
structure ComponentInfo where
  name : String
  type : String
  line : ℕ
deriving DecidableEq

/-- `CodeValidator.extractComponents`. -/
def extractComponents (code : String) : List ComponentInfo :=
  (scanAll matchFuncComponentAt code.data).map fun x =>
    { name := x.1, type := "function", line := lineOfPos code.data x.2 }

/-! ### The prop extraction regex

`/(\w+)=(?:{([^}]+)}|"([^"]+)")/g` from `CodeValidator.extractProps`. -/

/-- `PropInfo` from src/validators/code-validator.ts. -/
structure PropInfo where
  name : String
  value : String
  type : String
  line : ℕ
deriving DecidableEq

/-- One attempt of the prop regex at the start of `l`: returns
`((name, value, kind), consumed)`. -/
def matchPropAt (l : List Char) : Option ((String × String × String) × ℕ) :=
  let wlen := countWhile isWordChar l
  if wlen = 0 then none else
  let name := String.mk (l.take wlen)
  match l.drop wlen with
  | '=' :: b =>
    match b with
    | '\x7b' :: b1 =>
      let clen := countWhile (fun ch => !(ch = '\x7d')) b1
      if clen = 0 then none
      else if ['\x7d'].isPrefixOf (b1.drop clen) then
        some ((name, String.mk (b1.take clen), "expression"), wlen + 2 + clen + 1)
      else none
    | '"' :: b1 =>
      let clen := countWhile (fun ch => !(ch = '"')) b1
      if clen = 0 then none
      else if ['"'].isPrefixOf (b1.drop clen) then
        some ((name, String.mk (b1.take clen), "string"), wlen + 2 + clen + 1)
      else none
    | _ => none
  | _ => none

/-- `CodeValidator.extractProps`. -/
def extractProps (code : String) : List PropInfo :=
  (scanAll matchPropAt code.data).map fun x =>
    { name := x.1.1, value := x.1.2.1, type := x.1.2.2, line := lineOfPos code.data x.2 }

/-! ### The inline-style extraction regex

`/style=\{([^}]+)\}/g` from `CodeValidator.extractStyles`. -/

/-- `StyleInfo` from src/validators/code-validator.ts. -/
structure StyleInfo where
  type : String
  content : String
  line : ℕ
deriving DecidableEq

/-- One attempt of the style regex at the start of `l`. -/
def matchStyleAt (l : List Char) : Option (String × ℕ) :=
  if ("style=\x7b".data).isPrefixOf l then
    let b := l.drop 7
    let clen := countWhile (fun ch => !(ch = '\x7d')) b
    if clen = 0 then none
    else if ['\x7d'].isPrefixOf (b.drop clen) then
      some (String.mk (b.take clen), 7 + clen + 1)
    else none
  else none

/-- `CodeValidator.extractStyles`. -/
def extractStyles (code : String) : List StyleInfo :=
  (scanAll matchStyleAt code.data).map fun x =>
    { type := "inline", content := x.1, line := lineOfPos code.data x.2 }

/-! ### Parsed code and the validation rules -/

/-- `ParsedCode` from src/validators/code-validator.ts. -/
structure ParsedCode where
  raw : String
  lines : List String
  imports : List ImportInfo
  components : List ComponentInfo
  jsx : List JSXInfo
  props : List PropInfo
  styles : List StyleInfo

/-- `CodeValidator.parseCode`. -/
def parseCode (antdSet : List String) (code : String) : ParsedCode :=
  { raw := code
    lines := jsSplitLines code
    imports := extractImports code
    components := extractComponents code
    jsx := extractJSX antdSet code
    props := extractProps code
    styles := extractStyles code }

/-- Diagnostic severity. -/
inductive Severity where
  | error
  | warning
deriving DecidableEq

/-- The `type` field of a `ValidationError`:
`'syntax' | 'import' | 'prop' | 'accessibility' | 'antd-usage'`. -/
inductive ErrorKind where
  | syn
  | imp
  | prop
  | a11y
  | antdUsage
deriving DecidableEq

/-- The `type` field of a `ValidationWarning`:
`'performance' | 'best-practice' | 'style'`. -/
inductive WarningKind where
  | performance
  | bestPractice
  | style
deriving DecidableEq

/-- The `type` field of a `ValidationSuggestion`. -/
inductive SuggestionKind where
  | improvement
  | alternative
  | optimization
deriving DecidableEq

/-- `ValidationError` from src/validators/code-validator.ts (the unused
`column` field is omitted). -/
structure ValidationError where
  type : ErrorKind
  message : String
  line : Option ℕ := none
  severity : Severity
deriving DecidableEq

/-- `ValidationWarning` from src/validators/code-validator.ts. -/
structure ValidationWarning where
  type : WarningKind
  message : String
  line : Option ℕ := none
  suggestion : Option String := none
deriving DecidableEq

/-- `ValidationSuggestion` from src/validators/code-validator.ts. -/
structure ValidationSuggestion where
  type : SuggestionKind
  message : String
  exampleText : Option String := none
deriving DecidableEq

/-- `ValidationOptions` from src/validators/code-validator.ts (`strict` is
accepted but never consulted). -/
structure ValidationOptions where
  strict : Bool := true
  checkImports : Bool := true
  checkProps : Bool := true
  checkAccessibility : Bool := true
  checkPerformance : Bool := true
deriving DecidableEq

/-- `ValidationResult` from src/validators/code-validator.ts. -/
structure ValidationResult where
  isValid : Bool
  errors : List ValidationError
  warnings : List ValidationWarning
  suggestions : List ValidationSuggestion
  score : ℤ
deriving DecidableEq

/-- The `(errors, warnings, suggestions)` triple produced by one rule. -/
def RuleResult : Type :=
  List ValidationError × List ValidationWarning × List ValidationSuggestion

/-- `ImportValidationRule.validate`. -/
def importValidationRule (code : ParsedCode) : RuleResult :=
  let errors :=
    if !(code.imports.any fun imp => imp.source = "react") && code.jsx.length > 0 then
      [{ type := ErrorKind.imp, message := "Missing React import", severity := Severity.error }]
    else []
  let warnings := code.imports.foldl
    (fun acc imp =>
      if imp.source = "antd" then
        acc ++ imp.namedImports.filterMap fun namedImport =>
          if code.jsx.any fun jsx => jsx.tagName = namedImport then none
          else some
            { type := WarningKind.bestPractice
              message := "Unused import: " ++ namedImport ++ " from antd"
              suggestion := some "Remove unused imports to reduce bundle size" }
      else acc)
    []
  (errors, warnings, [])

/-- `AntdUsageValidationRule.validate`: for each extracted antd tag, flag
`Form.Item` when no `Form` tag was extracted anywhere in the document. -/
def antdUsageValidationRule (code : ParsedCode) : RuleResult :=
  let errors := code.jsx.filterMap fun jsx =>
    if jsx.isAntdComponent then
      if jsx.tagName = "Form.Item" && !(code.jsx.any fun j => j.tagName = "Form") then
        some
          { type := ErrorKind.antdUsage
            message := "Form.Item must be inside a Form component"
            line := some jsx.line
            severity := Severity.error }
      else none
    else none
  (errors, [], [])

/-- `PropValidationRule.validate`. -/
def propValidationRule (code : ParsedCode) : RuleResult :=
  let warnings := code.props.filterMap fun prop =>
    if prop.name = "size" && !(["small", "middle", "large"].contains prop.value) then
      some
        { type := WarningKind.bestPractice
          message := "Invalid size prop value: " ++ prop.value
          line := some prop.line
          suggestion := some "Use \"small\", \"middle\", or \"large\"" }
    else none
  ([], warnings, [])

/-- The per-tag body of `AccessibilityValidationRule.validate`'s `forEach`:
flag `img` tags whose match does not contain `alt=`, and `Button` tags whose
match contains neither `aria-label` nor `>`. -/
def accessibilityStep (acc : List ValidationWarning) (jsx : JSXInfo) :
    List ValidationWarning :=
  let acc :=
    if jsx.tagName = "img" && !(jsIncludes jsx.fullMatch "alt=") then
      acc ++ [{ type := WarningKind.bestPractice
                message := "Image missing alt text"
                line := some jsx.line
                suggestion := some "Add alt attribute for accessibility" }]
    else acc
  if jsx.tagName = "Button" && !(jsIncludes jsx.fullMatch "aria-label") &&
      !(jsIncludes jsx.fullMatch ">") then
    acc ++ [{ type := WarningKind.bestPractice
              message := "Button without accessible label"
              line := some jsx.line
              suggestion := some "Add aria-label or text content" }]
  else acc

/-- `AccessibilityValidationRule.validate`. -/
def accessibilityValidationRule (code : ParsedCode) : RuleResult :=
  ([], code.jsx.foldl accessibilityStep [], [])

/-- `PerformanceValidationRule.validate`. -/
def performanceValidationRule (code : ParsedCode) : RuleResult :=
  let warnings := code.lines.enum.filterMap fun il =>
    if jsIncludes il.2 "() =>" && jsIncludes il.2 "onClick" then
      some
        { type := WarningKind.performance
          message := "Inline function in event handler"
          line := some (il.1 + 1)
          suggestion := some "Move function outside render or use useCallback" }
    else none
  ([], warnings, [])

/-- `BestPracticeValidationRule.validate`. -/
def bestPracticeValidationRule (code : ParsedCode) : RuleResult :=
  let warnings := code.components.filterMap fun comp =>
    let upperStart :=
      match comp.name.data with
      | c :: _ => 'A' ≤ c && c ≤ 'Z'
      | [] => false
    if !upperStart then
      some
        { type := WarningKind.bestPractice
          message := "Component name should start with uppercase: " ++ comp.name
          line := some comp.line }
    else none
  let suggestions :=
    if code.jsx.length > 10 then
      [{ type := SuggestionKind.improvement
         message := "Consider breaking down large components into smaller ones"
         exampleText := some "Extract repeated patterns into reusable components" }]
    else []
  ([], warnings, suggestions)

/-- `CodeValidator.calculateScore`: `100`, minus 20 per error-severity
diagnostic, 5 per warning-severity error-kind diagnostic and 2 per plain
warning, floored at 0. -/
def calculateScore (errors : List ValidationError) (warnings : List ValidationWarning) : ℤ :=
  let score : ℤ := 100
  let score := score - 20 * (errors.filter fun e => e.severity = Severity.error).length
  let score := score - 5 * (errors.filter fun e => e.severity = Severity.warning).length
  let score := score - 2 * warnings.length
  max 0 score

/-- The fallback antd component-name list of
`CodeValidator.loadAntdComponents` (the constructor's background file load of
the antd submodule is an external boundary; the validator's component set is
therefore a parameter everywhere in this file, and this constant is the
source's hard-coded fallback). -/
def fallbackAntdComponents : List String :=
  ["Button", "Input", "Card", "Typography", "Space", "Row", "Col",
   "Form", "Table", "Modal", "Drawer", "Alert", "Spin", "Menu",
   "Dropdown", "Tooltip", "Popover", "Tabs", "Select", "DatePicker",
   "Checkbox", "Radio", "Switch", "Slider", "Upload", "Avatar",
   "Badge", "Tag", "Progress", "Tree", "List", "Steps", "Breadcrumb"]

/-- `CodeValidator.validate`: parse, run every applicable rule in registration
order (`Import` if `checkImports`, `AntdUsage` always, `Prop` if `checkProps`,
`Accessibility` if `checkAccessibility`, `Performance` if `checkPerformance`,
`BestPractice` always), concatenate their diagnostics, and derive the score
and validity.  The embedded `parseCode` is total, so the source's
parse-failure `catch` branch is unreachable. -/
def validate (antdSet : List String) (code : String) (options : ValidationOptions) :
    ValidationResult :=
  let parsedCode := parseCode antdSet code
  let results : List RuleResult :=
    (if options.checkImports then [importValidationRule parsedCode] else []) ++
    [antdUsageValidationRule parsedCode] ++
    (if options.checkProps then [propValidationRule parsedCode] else []) ++
    (if options.checkAccessibility then [accessibilityValidationRule parsedCode] else []) ++
    (if options.checkPerformance then [performanceValidationRule parsedCode] else []) ++
    [bestPracticeValidationRule parsedCode]
  let errors := (results.map fun r => r.1).flatten
  let warnings := (results.map fun r => r.2.1).flatten
  let suggestions := (results.map fun r => r.2.2).flatten
  { isValid := (errors.filter fun e => e.severity = Severity.error).length = 0
    errors := errors
    warnings := warnings
    suggestions := suggestions
    score := calculateScore errors warnings }

/-! ## Notions used by the statements, and concrete fixtures -/

/-- `a` occurs (at some position) strictly before an occurrence of `b` in `l`. -/
def appearsBefore {α : Type} (a b : α) (l : List α) : Prop :=
  ∃ l1 l2 l3, l = l1 ++ a :: l2 ++ b :: l3

/-- The confidence a registry entry would carry in the returned candidate
list: the accumulated score capped at 100. -/
def cappedScore (figmaNode : ParsedComponent) (mapping : ComponentMapping) : ℤ :=
  min (entryScore figmaNode mapping) 100

/-- A zero geometry record. -/
def blankLayout : LayoutInfo := { width := 0, height := 0, x := 0, y := 0 }

/-- A featureless FRAME node: no name, no styling, no children, no text. -/
def blankFrameNode : ParsedComponent :=
  .mk "frame-1" "" "FRAME" [] [] blankLayout {} none

/-- A featureless node whose kind tag matches no registry entry. -/
def unmappableNode : ParsedComponent :=
  .mk "node-2" "" "OTHER" [] [] blankLayout {} none

/-- A generation request whose Figma data holds zero components. -/
def emptyGenerationConfig : GenerationConfig :=
  { figmaData := { components := [] }
    componentName := "MyComponent"
    outputFormat := OutputFormat.typescript
    includeStyles := true
    antdVersion := "5.0.0" }

/-- A catalog analyzer that resolves no component (every entry undefined). -/
def noCatalog : String → Option AntdComponent := fun _ => none

/-- A generation request holding a single featureless FRAME component. -/
def oneFrameGenerationConfig : GenerationConfig :=
  { emptyGenerationConfig with figmaData := { components := [blankFrameNode] } }

/-- First child fixture for the layout-inference witness: at the origin. -/
def childAtOrigin : FigmaNode :=
  .mk "a" "A" "RECTANGLE" none (some { x := 0, y := 0, width := 10, height := 10 }) none

/-- Second child fixture: displaced mostly horizontally. -/
def childToTheRight : FigmaNode :=
  .mk "b" "B" "RECTANGLE" none (some { x := 100, y := 5, width := 10, height := 10 }) none

/-- A FRAME whose first two children are side by side. -/
def rowParentNode : FigmaNode :=
  .mk "p" "Row" "FRAME" (some [childAtOrigin, childToTheRight]) none none

/-! # Theorems -/

/-! ## Hex digits (C7) -/

theorem natToHex_of_lt_16 {n : ℕ} (h : n < 16) : natToHex n = [Nat.digitChar n] := by
  simp [natToHex, natToHexFuel, h]

theorem natToHex_two_digits {n : ℕ} (h1 : 16 ≤ n) (h2 : n < 256) :
    natToHex n = [Nat.digitChar (n / 16), Nat.digitChar (n % 16)] := by
  obtain ⟨m, rfl⟩ : ∃ m, n = m + 1 := ⟨n - 1, by omega⟩
  have hnot : ¬ (m + 1 < 16) := by omega
  have hdiv : (m + 1) / 16 < 16 := by omega
  simp [natToHex, natToHexFuel, hnot, hdiv]

/-- C7: Color normalization maps each normalized-float channel in `[0, 1]` to
a 2-digit hexadecimal string by scaling by 255 with round-half-up
(`⌊255·c + 1/2⌋`), deterministically; in particular channel value 1.0 maps to
`ff`, 0.0 to `00`, 0.5 to `80`. -/
theorem colorToHex_round_half_up (c : ℚ) (h0 : 0 ≤ c) (h1 : c ≤ 1) :
    (0 ≤ jsRound (c * 255) ∧ jsRound (c * 255) ≤ 255) ∧
    (channelHex c).data =
      [Nat.digitChar ((jsRound (c * 255)).toNat / 16),
       Nat.digitChar ((jsRound (c * 255)).toNat % 16)] ∧
    (channelHex c).length = 2 ∧
    (channelHex 1 = "ff" ∧ channelHex 0 = "00" ∧ channelHex (1 / 2) = "80") ∧
    colorToHex { r := 1, g := 0, b := 1 / 2 } = "#ff0080" := by
  have hb0 : 0 ≤ jsRound (c * 255) := by
    rw [jsRound]
    rw [show (0 : ℤ) = ((0 : ℤ)) from rfl]
    refine Int.le_floor.mpr ?_
    push_cast
    nlinarith
  have hb255 : jsRound (c * 255) ≤ 255 := by
    have hlt : jsRound (c * 255) < 256 := by
      rw [jsRound]
      refine Int.floor_lt.mpr ?_
      push_cast
      nlinarith
    omega
  have hdata : (channelHex c).data =
      [Nat.digitChar ((jsRound (c * 255)).toNat / 16),
       Nat.digitChar ((jsRound (c * 255)).toNat % 16)] := by
    have hih : intToHex (jsRound (c * 255)) = String.mk (natToHex (jsRound (c * 255)).toNat) := by
      rw [intToHex, if_neg (by omega)]
    set n := (jsRound (c * 255)).toNat with hn
    have hn255 : n < 256 := by omega
    by_cases hsmall : n < 16
    · have hdig : natToHex n = [Nat.digitChar n] := natToHex_of_lt_16 hsmall
      have hlen : (String.mk (natToHex n)).length = 1 := by
        simp [String.length, hdig]
      simp only [channelHex, hih, hlen, if_pos rfl]
      have hd0 : n / 16 = 0 := by omega
      have hdm : n % 16 = n := by omega
      rw [hd0, hdm]
      simp [hdig, String.mk]
      rfl
    · have hdig : natToHex n = [Nat.digitChar (n / 16), Nat.digitChar (n % 16)] :=
        natToHex_two_digits (by omega) hn255
      have hlen : ¬ (String.mk (natToHex n)).length = 1 := by
        simp [String.length, hdig]
      simp only [channelHex, hih, if_neg hlen]
      simp [hdig]
  have hff : channelHex 1 = "ff" := by
    have h : jsRound ((1 : ℚ) * 255) = 255 := by norm_num [jsRound]
    simp only [channelHex, h]
    decide
  have h00 : channelHex 0 = "00" := by
    have h : jsRound ((0 : ℚ) * 255) = 0 := by norm_num [jsRound]
    simp only [channelHex, h]
    decide
  have h80 : channelHex (1 / 2) = "80" := by
    have h : jsRound ((1 / 2 : ℚ) * 255) = 128 := by norm_num [jsRound]
    simp only [channelHex, h]
    decide
  refine ⟨⟨hb0, hb255⟩, hdata, ?_, ⟨hff, h00, h80⟩, ?_⟩
  · have : (channelHex c).length = (channelHex c).data.length := rfl
    rw [this, hdata]
    rfl
  · simp only [colorToHex, List.map]
    rw [hff, h00, h80]
    decide

/-- Witness for `colorToHex_round_half_up` at the half-intensity channel. -/
theorem colorToHex_round_half_up_witness :
    (0 ≤ jsRound ((1 / 2 : ℚ) * 255) ∧ jsRound ((1 / 2 : ℚ) * 255) ≤ 255) ∧
    (channelHex (1 / 2)).data =
      [Nat.digitChar ((jsRound ((1 / 2 : ℚ) * 255)).toNat / 16),
       Nat.digitChar ((jsRound ((1 / 2 : ℚ) * 255)).toNat % 16)] ∧
    (channelHex (1 / 2)).length = 2 ∧
    (channelHex 1 = "ff" ∧ channelHex 0 = "00" ∧ channelHex (1 / 2) = "80") ∧
    colorToHex { r := 1, g := 0, b := 1 / 2 } = "#ff0080" :=
  colorToHex_round_half_up (1 / 2) (by norm_num) (by norm_num)

/-! ## Layout inference (C8) -/

/-- C8: for a FRAME/COMPONENT container whose first two children both have
resolvable geometry, the inferred primary axis is `row` exactly when the
absolute horizontal delta between those children exceeds the absolute vertical
delta, and `column` otherwise. -/
theorem extractLayout_primary_axis (node c1 c2 : FigmaNode)
    (rest : List FigmaNode) (b1 b2 : Rect)
    (htype : node.type = "FRAME" ∨ node.type = "COMPONENT")
    (hch : node.children = some (c1 :: c2 :: rest))
    (hb1 : c1.absoluteBoundingBox = some b1)
    (hb2 : c2.absoluteBoundingBox = some b2) :
    (extractLayout node).flexDirection =
      some (if abs (b1.x - b2.x) > abs (b1.y - b2.y) then "row" else "column") := by
  unfold extractLayout
  rw [if_pos htype, hch]
  have hlen : (c1 :: c2 :: rest).length > 1 := by simp
  simp only [if_pos hlen, hb1, hb2]
  by_cases hcmp : abs (b1.y - b2.y) < abs (b1.x - b2.x)
  · simp [hcmp, gt_iff_lt]
  · simp [hcmp, gt_iff_lt]

/-- Witness for `extractLayout_primary_axis`: two children 100 apart
horizontally and 5 apart vertically infer a `row`. -/
theorem extractLayout_primary_axis_witness :
    (extractLayout rowParentNode).flexDirection = some "row" := by
  have h := extractLayout_primary_axis rowParentNode childAtOrigin childToTheRight []
    { x := 0, y := 0, width := 10, height := 10 }
    { x := 100, y := 5, width := 10, height := 10 }
    (Or.inl rfl) rfl rfl rfl
  rw [h]
  norm_num

/-! ## Sorting lemmas for the mapping engine -/

theorem insertByConfidenceDesc_ne_nil (x : ComponentMapping) (l : List ComponentMapping) :
    insertByConfidenceDesc x l ≠ [] := by
  cases l with
  | nil => simp [insertByConfidenceDesc]
  | cons y ys =>
    rw [insertByConfidenceDesc]
    split <;> simp

theorem sortByConfidenceDesc_eq_nil_iff (l : List ComponentMapping) :
    sortByConfidenceDesc l = [] ↔ l = [] := by
  cases l with
  | nil => simp [sortByConfidenceDesc]
  | cons x xs =>
    simp [sortByConfidenceDesc, insertByConfidenceDesc_ne_nil]

/-! ## FRAME nodes are always mappable (C10) -/

/-- C10: a node whose kind tag is `FRAME` is never unmappable — the fallback
`div` registry entry scores 30 on the type match alone (its only predicate,
`is_container`, has no dispatch case and contributes nothing), which exceeds
the retention threshold 20 whatever the node's name, styling or children. -/
theorem frame_node_always_mappable (node : ParsedComponent) (h : node.type = "FRAME") :
    getComponentMapping node ≠ [] := by
  have hdivEntry : componentMappings.get ⟨4, by decide⟩ =
      { figmaType := "FRAME", figmaName := none, antdComponent := "div", confidence := 0,
        rules := [{ condition := "is_container", action := "use_div", weight := 10 }] } := by
    rfl
  have hrule : ∀ nd : ParsedComponent,
      evaluateRule { condition := "is_container", action := "use_div", weight := 10 } nd
        = false := fun _ => rfl
  have hscore : entryScore node (componentMappings.get ⟨4, by decide⟩) = 30 := by
    rw [hdivEntry]
    simp [entryScore, truthyStr, hrule, h]
  have hmem : ({ componentMappings.get ⟨4, by decide⟩ with confidence := (30 : ℤ) })
      ∈ candidateMappings node := by
    rw [candidateMappings]
    refine List.mem_filterMap.mpr ⟨componentMappings.get ⟨4, by decide⟩, List.get_mem _ _ _, ?_⟩
    simp only [hscore]
    norm_num
  intro hcontra
  rw [getComponentMapping] at hcontra
  rw [sortByConfidenceDesc_eq_nil_iff] at hcontra
  rw [hcontra] at hmem
  exact absurd hmem (List.not_mem_nil _)

/-- Witness for `frame_node_always_mappable` at a featureless FRAME node. -/
theorem frame_node_always_mappable_witness :
    getComponentMapping blankFrameNode ≠ [] :=
  frame_node_always_mappable blankFrameNode rfl

theorem mem_insertByConfidenceDesc {a x : ComponentMapping} {l : List ComponentMapping} :
    a ∈ insertByConfidenceDesc x l ↔ a = x ∨ a ∈ l := by
  induction l with
  | nil => simp [insertByConfidenceDesc]
  | cons y ys ih =>
    rw [insertByConfidenceDesc]
    split
    · simp
    · simp only [List.mem_cons, ih]
      tauto

theorem mem_sortByConfidenceDesc {a : ComponentMapping} {l : List ComponentMapping} :
    a ∈ sortByConfidenceDesc l ↔ a ∈ l := by
  induction l with
  | nil => simp [sortByConfidenceDesc]
  | cons x xs ih =>
    simp [sortByConfidenceDesc, mem_insertByConfidenceDesc, ih]

/-! ## Confidence bounds (C2) -/

/-- C2: every `(entry, confidence)` pair returned by `getComponentMapping` has
confidence strictly greater than 20 and at most 100, and a node for which no
registry entry's accumulated score exceeds the threshold yields the empty
candidate list (in particular no returned confidence is ever negative, since
`20 < confidence`). -/
theorem getComponentMapping_confidence_bounds (node : ParsedComponent) :
    (∀ m ∈ getComponentMapping node, 20 < m.confidence ∧ m.confidence ≤ 100) ∧
    ((∀ m ∈ componentMappings, entryScore node m ≤ 20) → getComponentMapping node = []) := by
  constructor
  · intro m hm
    rw [getComponentMapping, mem_sortByConfidenceDesc, candidateMappings] at hm
    obtain ⟨e, _, hf⟩ := List.mem_filterMap.mp hm
    dsimp only at hf
    by_cases h20 : entryScore node e > 20
    · rw [if_pos h20] at hf
      obtain rfl := (Option.some.injEq _ _).mp hf
      constructor
      · exact lt_min h20 (by norm_num)
      · exact min_le_right _ _
    · rw [if_neg h20] at hf
      exact absurd hf (by simp)
  · intro hall
    rw [getComponentMapping, sortByConfidenceDesc_eq_nil_iff, candidateMappings]
    rw [List.filterMap_eq_nil_iff]
    intro e he
    dsimp only
    rw [if_neg (by have := hall e he; omega)]

/-- Witness for `getComponentMapping_confidence_bounds`: the Input candidate
of a featureless FRAME node carries confidence 30 ∈ (20, 100], and a node of
unmatched kind yields the empty list. -/
theorem getComponentMapping_confidence_bounds_witness :
    (20 < ({ componentMappings.get ⟨1, by decide⟩ with confidence := (30 : ℤ) }
        : ComponentMapping).confidence ∧
      ({ componentMappings.get ⟨1, by decide⟩ with confidence := (30 : ℤ) }
        : ComponentMapping).confidence ≤ 100) ∧
    getComponentMapping unmappableNode = [] :=
  ⟨(getComponentMapping_confidence_bounds blankFrameNode).1 _ (by decide),
   (getComponentMapping_confidence_bounds unmappableNode).2 (by decide)⟩

/-! ## Validator score and validity (C3) -/

/-- C3: for every validation outcome, the quality score equals
`max 0 (100 − 20·#(error-severity diagnostics) − 5·#(warning-severity
error-kind diagnostics) − 2·#(plain warnings))` — so zero diagnostics gives
100 and five or more error-severity diagnostics force the floor 0 — and
`isValid` holds iff the count of error-severity diagnostics is zero,
independent of the score. -/
theorem validate_score_and_validity (antdSet : List String) (code : String)
    (options : ValidationOptions) :
    (validate antdSet code options).score =
      max 0 (100
        - 20 * (((validate antdSet code options).errors.filter
            fun e => e.severity = Severity.error).length : ℤ)
        - 5 * (((validate antdSet code options).errors.filter
            fun e => e.severity = Severity.warning).length : ℤ)
        - 2 * (((validate antdSet code options).warnings.length : ℤ))) ∧
    ((validate antdSet code options).isValid = true ↔
      ((validate antdSet code options).errors.filter
          fun e => e.severity = Severity.error).length = 0) := by
  constructor
  · rfl
  · simp only [validate]
    exact decide_eq_true_iff

/-! ## Empty input (C5) -/

set_option maxRecDepth 8192 in
/-- C5 counterexample: on an input with zero components, the emitted code is
the fallback error component — an `Alert` rendering the failure — and not the
empty-body component definition the generator's normal path would produce, so
the claimed "valid component definition with an empty body" does not hold. -/
theorem generateComponent_empty_not_empty_body :
    (generateComponent noCatalog emptyGenerationConfig).code =
      generateErrorComponent "MyComponent" "No components found in Figma data"
        OutputFormat.typescript ∧
    (generateComponent noCatalog emptyGenerationConfig).code ≠
      generateReactCode "MyComponent" [] OutputFormat.typescript true ∧
    jsIncludes (generateComponent noCatalog emptyGenerationConfig).code "<Alert" = true := by
  refine ⟨by decide, by decide, by decide⟩

/-- C5 amended: when the input contains zero components, `generateComponent`
returns the fallback error component (an antd `Alert` rendering
"No components found in Figma data") as its code, and the only diagnostic is
the single warning `Code generation failed: No components found in Figma
data`; no mapping is recorded. -/
theorem generateComponent_empty_input (analyze : String → Option AntdComponent)
    (config : GenerationConfig) (h : config.figmaData.components = []) :
    (generateComponent analyze config).code =
      generateErrorComponent config.componentName "No components found in Figma data"
        config.outputFormat ∧
    (generateComponent analyze config).warnings =
      ["Code generation failed: No components found in Figma data"] ∧
    (generateComponent analyze config).mappings = [] := by
  have hcore : generateComponentCore analyze config =
      Except.error "No components found in Figma data" := by
    rw [generateComponentCore, if_pos (by rw [h]; rfl)]
  simp [generateComponent, hcore]

/-- Witness for `generateComponent_empty_input` at the empty generation
request. -/
theorem generateComponent_empty_input_witness :
    (generateComponent noCatalog emptyGenerationConfig).code =
      generateErrorComponent "MyComponent" "No components found in Figma data"
        OutputFormat.typescript ∧
    (generateComponent noCatalog emptyGenerationConfig).warnings =
      ["Code generation failed: No components found in Figma data"] ∧
    (generateComponent noCatalog emptyGenerationConfig).mappings = [] :=
  generateComponent_empty_input noCatalog emptyGenerationConfig rfl

/-! ## Synthesis never throws (C6) -/

set_option maxRecDepth 8192 in
/-- C6 counterexample: a mapped tree with a node whose catalog entry is
undefined — the claim's example of an exception — does not raise at all and
does not yield the error-notice fallback: the pipeline returns normally
(`Except.ok`), the node is dropped with a warning, and the emitted code
contains no `Alert`. -/
theorem undefined_catalog_entry_no_error_notice :
    (∃ r, generateComponentCore noCatalog oneFrameGenerationConfig = Except.ok r) ∧
    jsIncludes (generateComponent noCatalog oneFrameGenerationConfig).code "<Alert" = false ∧
    (generateComponent noCatalog oneFrameGenerationConfig).warnings =
      ["Could not analyze Ant Design component: Input"] := by
  refine ⟨⟨_, rfl⟩, by decide, by decide⟩

/-- C6 amended: `generateComponent` is total by construction (the
`Except`-modelled `try` body is caught), and whenever the pipeline raises,
the returned artifact's code is the fallback error component, which renders
the error message visibly (the message is a substring of the code), and the
failure is recorded as a warning — never an escaping exception.  (A node
whose catalog entry is undefined is not such an exception: it is absorbed as
a warning and the node is skipped.) -/
theorem generateComponent_never_throws (analyze : String → Option AntdComponent)
    (config : GenerationConfig) (msg : String)
    (h : generateComponentCore analyze config = Except.error msg) :
    (generateComponent analyze config).code =
      generateErrorComponent config.componentName msg config.outputFormat ∧
    ("Code generation failed: " ++ msg) ∈ (generateComponent analyze config).warnings ∧
    jsIncludes (generateComponent analyze config).code msg = true := by
  have hinc : jsIncludes
      (generateErrorComponent config.componentName msg config.outputFormat) msg = true := by
    rw [jsIncludes, decide_eq_true_iff]
    exact ⟨(errorComponentPre config.componentName config.outputFormat).data,
           (errorComponentPost config.componentName).data, rfl⟩
  refine ⟨?_, ?_, ?_⟩ <;> simp [generateComponent, h, hinc]

/-- Witness for `generateComponent_never_throws` at the one reachable throw
site (zero components). -/
theorem generateComponent_never_throws_witness :
    (generateComponent noCatalog emptyGenerationConfig).code =
      generateErrorComponent "MyComponent" "No components found in Figma data"
        OutputFormat.typescript ∧
    ("Code generation failed: " ++ "No components found in Figma data") ∈
      (generateComponent noCatalog emptyGenerationConfig).warnings ∧
    jsIncludes (generateComponent noCatalog emptyGenerationConfig).code
      "No components found in Figma data" = true :=
  generateComponent_never_throws noCatalog emptyGenerationConfig
    "No components found in Figma data" (by rfl)

/-! ## The Form.Item misuse rule is unreachable (C4) -/

/-- C4 (code bug): the extraction pattern `<(\w+)...` cannot capture the
dotted tag `Form.Item`, so a source text whose only component-library tag is
a `Form.Item` with no enclosing `Form` produces no JSX occurrence at all —
whatever component set is loaded — and `validate` emits zero `antd-usage`
diagnostics (indeed zero errors), not the one error-severity diagnostic the
specification describes. -/
theorem formItem_misuse_never_flagged :
    (∀ antdSet : List String,
      extractJSX antdSet "<Form.Item name=\"a\" />" = []) ∧
    ((validate fallbackAntdComponents "<Form.Item name=\"a\" />" {}).errors.filter
        fun e => e.type = ErrorKind.antdUsage) = [] ∧
    (validate fallbackAntdComponents "<Form.Item name=\"a\" />" {}).errors = [] := by
  refine ⟨?_, by decide, by decide⟩
  intro antdSet
  have hscan : scanAll matchJSXAt ("<Form.Item name=\"a\" />".data) = [] := by decide
  rw [extractJSX, hscan]
  rfl

/-! ## Stability of the confidence sort (C1) -/

theorem filter_insertByConfidenceDesc (x : ComponentMapping) (l : List ComponentMapping)
    (c : ℤ) :
    (insertByConfidenceDesc x l).filter (fun m => m.confidence = c) =
      if x.confidence = c then x :: l.filter (fun m => m.confidence = c)
      else l.filter (fun m => m.confidence = c) := by
  induction l with
  | nil =>
    by_cases hx : x.confidence = c <;> simp [insertByConfidenceDesc, List.filter_cons, hx]
  | cons y ys ih =>
    rw [insertByConfidenceDesc]
    by_cases hyx : y.confidence ≤ x.confidence
    · rw [if_pos hyx]
      by_cases hx : x.confidence = c <;> simp [List.filter_cons, hx]
    · rw [if_neg hyx]
      have hxy : x.confidence < y.confidence := not_le.mp hyx
      by_cases hx : x.confidence = c
      · have hy : ¬ (y.confidence = c) := by omega
        simp [List.filter_cons, hx, hy, ih]
      · by_cases hy : y.confidence = c <;> simp [List.filter_cons, hx, hy, ih]

theorem filter_sortByConfidenceDesc (l : List ComponentMapping) (c : ℤ) :
    (sortByConfidenceDesc l).filter (fun m => m.confidence = c) =
      l.filter (fun m => m.confidence = c) := by
  induction l with
  | nil => rfl
  | cons x xs ih =>
    rw [sortByConfidenceDesc, filter_insertByConfidenceDesc, ih]
    by_cases hx : x.confidence = c <;> simp [List.filter_cons, hx]

theorem appearsBefore_of_filter {α : Type} (p : α → Bool) {a b : α} :
    ∀ {l : List α}, appearsBefore a b (l.filter p) → appearsBefore a b l := by
  intro l
  induction l with
  | nil =>
    rintro ⟨l1, l2, l3, h⟩
    rw [List.filter_nil] at h
    exact absurd h.symm (by simp)
  | cons x t ih =>
    rw [List.filter_cons]
    split
    · rintro ⟨l1, l2, l3, h⟩
      cases l1 with
      | nil =>
        rw [List.nil_append] at h
        obtain ⟨rfl, h2⟩ := List.cons.inj h
        have hbmem : b ∈ t := by
          have hb : b ∈ List.filter p t := by rw [h2]; simp
          exact List.mem_of_mem_filter hb
        obtain ⟨u, v, rfl⟩ := List.append_of_mem hbmem
        exact ⟨[], u, v, by simp⟩
      | cons x' l1' =>
        rw [List.cons_append] at h
        obtain ⟨rfl, h2⟩ := List.cons.inj h
        obtain ⟨m1, m2, m3, ht⟩ := ih ⟨l1', l2, l3, h2⟩
        exact ⟨x :: m1, m2, m3, by rw [ht]; rfl⟩
    · intro hab
      obtain ⟨m1, m2, m3, ht⟩ := ih hab
      exact ⟨x :: m1, m2, m3, by rw [ht]; rfl⟩

theorem take_get_split {α : Type} (L : List α) (i j : ℕ) (hij : i < j)
    (hj : j < L.length) :
    ∃ t u, L = L.take i ++ L.get ⟨i, by omega⟩ :: (t ++ L.get ⟨j, hj⟩ :: u) := by
  refine ⟨(L.drop (i + 1)).take (j - i - 1), L.drop (j + 1), ?_⟩
  conv_lhs => rw [← List.take_append_drop i L]
  congr 1
  rw [List.drop_eq_getElem_cons (by omega : i < L.length)]
  congr 1
  conv_lhs => rw [← List.take_append_drop (j - i - 1) (L.drop (i + 1))]
  congr 1
  rw [List.drop_drop]
  have harith : i + 1 + (j - i - 1) = j := by omega
  rw [harith]
  exact List.drop_eq_getElem_cons hj

theorem pairwise_insertByConfidenceDesc (x : ComponentMapping) (l : List ComponentMapping)
    (h : l.Pairwise (fun a b => b.confidence ≤ a.confidence)) :
    (insertByConfidenceDesc x l).Pairwise (fun a b => b.confidence ≤ a.confidence) := by
  induction l with
  | nil => simp [insertByConfidenceDesc]
  | cons y ys ih =>
    rw [insertByConfidenceDesc]
    obtain ⟨hy, hys⟩ := List.pairwise_cons.mp h
    by_cases hyx : y.confidence ≤ x.confidence
    · rw [if_pos hyx]
      refine List.pairwise_cons.mpr ⟨?_, h⟩
      intro z hz
      rcases List.mem_cons.mp hz with rfl | hz'
      · exact hyx
      · exact le_trans (hy z hz') hyx
    · rw [if_neg hyx]
      refine List.pairwise_cons.mpr ⟨?_, ih hys⟩
      intro z hz
      rcases mem_insertByConfidenceDesc.mp hz with rfl | hz'
      · exact le_of_lt (not_le.mp hyx)
      · exact hy z hz'

theorem pairwise_sortByConfidenceDesc (l : List ComponentMapping) :
    (sortByConfidenceDesc l).Pairwise (fun a b => b.confidence ≤ a.confidence) := by
  induction l with
  | nil => simp [sortByConfidenceDesc]
  | cons x xs ih => exact pairwise_insertByConfidenceDesc x _ ih

/-- C1: when two registered mapping rule entries accumulate equal confidence
for a node (both above the threshold), the entry registered earlier appears
earlier in the list returned by `getComponentMapping`; and when that tied
confidence is moreover maximal — every entry's capped confidence is at most
it, and every earlier-registered entry either misses the threshold or caps
strictly below it — the earlier entry is the head of the list, hence the one
selected as best mapping. -/
theorem getComponentMapping_tiebreak (node : ParsedComponent) (i j : ℕ)
    (hi : i < componentMappings.length) (hj : j < componentMappings.length) (hij : i < j)
    (heq : entryScore node (componentMappings.get ⟨i, hi⟩) =
      entryScore node (componentMappings.get ⟨j, hj⟩))
    (h20 : 20 < entryScore node (componentMappings.get ⟨i, hi⟩)) :
    appearsBefore
      { componentMappings.get ⟨i, hi⟩ with confidence := cappedScore node (componentMappings.get ⟨i, hi⟩) }
      { componentMappings.get ⟨j, hj⟩ with confidence := cappedScore node (componentMappings.get ⟨j, hj⟩) }
      (getComponentMapping node) ∧
    ((∀ m ∈ componentMappings,
        cappedScore node m ≤ cappedScore node (componentMappings.get ⟨i, hi⟩)) →
     (∀ m ∈ componentMappings.take i, entryScore node m ≤ 20 ∨
        cappedScore node m < cappedScore node (componentMappings.get ⟨i, hi⟩)) →
     (getComponentMapping node).head? =
       some { componentMappings.get ⟨i, hi⟩ with confidence := cappedScore node (componentMappings.get ⟨i, hi⟩) }) := by
  set eI := componentMappings.get ⟨i, hi⟩ with heI
  set eJ := componentMappings.get ⟨j, hj⟩ with heJ
  set cI : ℤ := cappedScore node eI with hcI
  have h20J : 20 < entryScore node eJ := heq ▸ h20
  have hcapJ : cappedScore node eJ = cI := by rw [hcI, cappedScore, cappedScore, heq]
  set f : ComponentMapping → Option ComponentMapping := fun mapping =>
    let confidence := entryScore node mapping
    if confidence > 20 then some { mapping with confidence := min confidence 100 } else none
    with hf
  have hcandf : candidateMappings node = componentMappings.filterMap f := rfl
  have hfI : f eI = some { eI with confidence := cI } := by
    rw [hf]
    dsimp only
    rw [if_pos h20]
    rw [hcI, cappedScore]
  have hfJ : f eJ = some { eJ with confidence := cI } := by
    rw [hf]
    dsimp only
    rw [if_pos h20J]
    rw [← hcapJ, cappedScore]
  obtain ⟨t, u, hsplit⟩ := take_get_split componentMappings i j hij hj
  rw [← heI, ← heJ] at hsplit
  have hcand : candidateMappings node =
      (componentMappings.take i).filterMap f ++
        ({ eI with confidence := cI } :: (t.filterMap f ++ { eJ with confidence := cI } :: u.filterMap f)) := by
    rw [hcandf]
    conv_lhs => rw [hsplit]
    rw [List.filterMap_append, List.filterMap_cons, hfI, List.filterMap_append,
      List.filterMap_cons, hfJ]
  have hfiltershape : (candidateMappings node).filter (fun m => m.confidence = cI) =
      ((componentMappings.take i).filterMap f).filter (fun m => m.confidence = cI) ++
        ({ eI with confidence := cI } ::
          ((t.filterMap f).filter (fun m => m.confidence = cI) ++
            { eJ with confidence := cI } ::
              (u.filterMap f).filter (fun m => m.confidence = cI))) := by
    rw [hcand]
    rw [List.filter_append, List.filter_cons, List.filter_append, List.filter_cons]
    rw [if_pos (by simp), if_pos (by simp)]
  have hsortfilter : (getComponentMapping node).filter (fun m => m.confidence = cI) =
      (candidateMappings node).filter (fun m => m.confidence = cI) := by
    rw [getComponentMapping]
    exact filter_sortByConfidenceDesc _ _
  constructor
  · rw [hcapJ]
    refine appearsBefore_of_filter (fun m => m.confidence = cI) ?_
    rw [hsortfilter, hfiltershape]
    exact ⟨((componentMappings.take i).filterMap f).filter (fun m => m.confidence = cI),
           (t.filterMap f).filter (fun m => m.confidence = cI),
           (u.filterMap f).filter (fun m => m.confidence = cI),
           by simp [List.cons_append, List.append_assoc]⟩
  · intro hmax hfirst
    have hub : ∀ m ∈ candidateMappings node, m.confidence ≤ cI := by
      intro m hm
      rw [hcandf] at hm
      obtain ⟨e, he, hfe⟩ := List.mem_filterMap.mp hm
      rw [hf] at hfe
      dsimp only at hfe
      by_cases h20e : entryScore node e > 20
      · rw [if_pos h20e] at hfe
        obtain rfl := (Option.some.injEq _ _).mp hfe
        exact le_trans (le_of_eq rfl) (hmax e he)
      · rw [if_neg h20e] at hfe
        cases hfe
    have haImem : ({ eI with confidence := cI }) ∈ candidateMappings node := by
      rw [hcand]
      simp
    cases hout : getComponentMapping node with
    | nil =>
      exfalso
      rw [getComponentMapping, sortByConfidenceDesc_eq_nil_iff] at hout
      rw [hout] at haImem
      exact absurd haImem (List.not_mem_nil _)
    | cons h0 rest =>
      have hh0mem : h0 ∈ candidateMappings node := by
        have : h0 ∈ getComponentMapping node := by rw [hout]; exact List.mem_cons_self _ _
        rw [getComponentMapping] at this
        exact mem_sortByConfidenceDesc.mp this
      have h0le : h0.confidence ≤ cI := hub h0 hh0mem
      have h0ge : cI ≤ h0.confidence := by
        have haIout : ({ eI with confidence := cI }) ∈ getComponentMapping node := by
          rw [getComponentMapping]
          exact mem_sortByConfidenceDesc.mpr haImem
        rw [hout] at haIout
        rcases List.mem_cons.mp haIout with hEq | hrest
        · rw [← hEq]
        · have hpw := pairwise_sortByConfidenceDesc (candidateMappings node)
          rw [← getComponentMapping, hout] at hpw
          obtain ⟨hrel, _⟩ := List.pairwise_cons.mp hpw
          exact hrel _ hrest
      have hfout : (getComponentMapping node).filter (fun m => m.confidence = cI) =
          h0 :: rest.filter (fun m => m.confidence = cI) := by
        rw [hout, List.filter_cons, if_pos (by simp only [decide_eq_true_eq]; omega)]
      have hpre : ((componentMappings.take i).filterMap f).filter
          (fun m => m.confidence = cI) = [] := by
        rw [List.filter_eq_nil_iff]
        intro m hm
        obtain ⟨e, he, hfe⟩ := List.mem_filterMap.mp hm
        rw [hf] at hfe
        dsimp only at hfe
        rcases hfirst e he with hsc | hsc
        · rw [if_neg (by omega)] at hfe
          cases hfe
        · by_cases h20e : entryScore node e > 20
          · rw [if_pos h20e] at hfe
            obtain rfl := (Option.some.injEq _ _).mp hfe
            simp only [decide_eq_true_eq]
            rw [cappedScore] at hsc
            omega
          · rw [if_neg h20e] at hfe
            cases hfe
      have hchain := hfout
      rw [hsortfilter, hfiltershape, hpre, List.nil_append] at hchain
      obtain ⟨rfl, _⟩ := List.cons.inj hchain
      rfl

/-- Witness for `getComponentMapping_tiebreak`: on a featureless FRAME node
the Input entry (registered second) and the Card entry (registered third) both
score 30; the Input candidate precedes the Card candidate and is the selected
head. -/
theorem getComponentMapping_tiebreak_witness :
    appearsBefore
      { componentMappings.get ⟨1, by decide⟩ with confidence := cappedScore blankFrameNode (componentMappings.get ⟨1, by decide⟩) }
      { componentMappings.get ⟨2, by decide⟩ with confidence := cappedScore blankFrameNode (componentMappings.get ⟨2, by decide⟩) }
      (getComponentMapping blankFrameNode) ∧
    (getComponentMapping blankFrameNode).head? =
      some { componentMappings.get ⟨1, by decide⟩ with confidence := cappedScore blankFrameNode (componentMappings.get ⟨1, by decide⟩) } := by
  have h := getComponentMapping_tiebreak blankFrameNode 1 2 (by decide) (by decide)
    (by decide) (by decide) (by decide)
  exact ⟨h.1, h.2 (by decide) (by decide)⟩

/-! ## Every extracted JSX match contains `>` (C9) -/

theorem findSubIdx_isPrefixOf {pat : List Char} :
    ∀ {l : List Char} {r : ℕ}, findSubIdx pat l = some r →
      pat.isPrefixOf (l.drop r) = true := by
  intro l
  induction l with
  | nil =>
    intro r h
    rw [findSubIdx] at h
    split at h
    · obtain rfl := (Option.some.injEq _ _).mp h
      have : pat = [] := by simpa [List.isEmpty_iff] using ‹pat.isEmpty = true›
      simp [this, List.isPrefixOf]
    · cases h
  | cons c rest ih =>
    intro r h
    rw [findSubIdx] at h
    split at h
    · obtain rfl := (Option.some.injEq _ _).mp h
      simpa using ‹pat.isPrefixOf (c :: rest) = true›
    · obtain ⟨r', hr', rfl⟩ := Option.map_eq_some'.mp h
      simpa using ih hr'

theorem tryAltJSX_take_ends {tag b : List Char} {n : ℕ}
    (h : tryAltJSX tag b = some n) : ∃ s, b.take n = s ++ ['>'] := by
  rw [tryAltJSX] at h
  split at h
  · rename_i halt1
    obtain rfl := (Option.some.injEq _ _).mp h
    rw [List.isPrefixOf_iff_prefix] at halt1
    obtain ⟨t2, ht2⟩ := halt1
    refine ⟨b.take (countWhile jsIsSpace b) ++ ['/'], ?_⟩
    rw [List.take_add, ← ht2]
    simp
  · split at h
    · rename_i htk
      split at h
      · rename_i r hfind
        obtain rfl := (Option.some.injEq _ _).mp h
        have hpre := findSubIdx_isPrefixOf hfind
        rw [List.isPrefixOf_iff_prefix] at hpre
        obtain ⟨t3, ht3⟩ := hpre
        obtain ⟨t0, rfl⟩ : ∃ t0, b = '>' :: t0 := by
          cases b with
          | nil => simp at htk
          | cons c0 t0 =>
            simp at htk
            exact ⟨t0, by rw [htk]⟩
        have hlenpat : ('<' :: '/' :: (tag ++ ['>'])).length = tag.length + 3 := by
          simp
        have hn : 1 + r + (2 + tag.length + 1) = (r + (tag.length + 3)) + 1 := by omega
        rw [hn, List.take_succ_cons]
        have hdrop1 : ('>' :: t0).drop 1 = t0 := rfl
        rw [hdrop1] at ht3
        have htk0 : t0.take (r + (tag.length + 3)) =
            t0.take r ++ ('<' :: '/' :: (tag ++ ['>'])) := by
          rw [List.take_add, ← ht3, ← hlenpat, List.take_left]
        rw [htk0]
        refine ⟨'>' :: (t0.take r ++ ('<' :: '/' :: tag)), ?_⟩
        simp
      · cases h
    · cases h

theorem matchAfterTag_take_ends {tag a : List Char} {c : ℕ}
    (h : matchAfterTag tag a = some c) : ∃ s, a.take c = s ++ ['>'] := by
  rw [matchAfterTag] at h
  dsimp only at h
  split at h
  · rename_i c0 hga
    obtain rfl := (Option.some.injEq _ _).mp h
    obtain ⟨j, _, hj⟩ := List.exists_of_findSome?_eq_some hga
    obtain ⟨m, _, hm⟩ := List.exists_of_findSome?_eq_some hj
    obtain ⟨c', hc', rfl⟩ := Option.map_eq_some'.mp hm
    have hdd : (a.drop j).drop m = a.drop (j + m) := by
      rw [List.drop_drop]
      try rw [Nat.add_comm]
    rw [hdd] at hc'
    obtain ⟨s, hs⟩ := tryAltJSX_take_ends hc'
    refine ⟨a.take (j + m) ++ s, ?_⟩
    have harith : j + m + c' = (j + m) + c' := rfl
    rw [harith, List.take_add, hs, List.append_assoc]
  · exact tryAltJSX_take_ends h

theorem matchJSXAt_contains_gt {l : List Char} {tag full : String} {n : ℕ}
    (h : matchJSXAt l = some ((tag, full), n)) : '>' ∈ full.data := by
  rw [matchJSXAt] at h
  split at h
  · rename_i htk
    dsimp only at h
    split at h
    · cases h
    · split at h
      · rename_i c0 hafter
        simp only [Option.some.injEq, Prod.mk.injEq] at h
        obtain ⟨⟨_, hfull⟩, _⟩ := h
        obtain ⟨rest, rfl⟩ : ∃ rest, l = '<' :: rest := by
          cases l with
          | nil => simp at htk
          | cons c0' rest =>
            simp at htk
            exact ⟨rest, by rw [htk]⟩
        obtain ⟨s, hs⟩ := matchAfterTag_take_ends hafter
        rw [← hfull]
        show '>' ∈ (('<' :: rest).take (1 + countWhile isWordChar (('<' :: rest).drop 1) + c0))
        have hdrop1 : ('<' :: rest).drop 1 = rest := rfl
        rw [hdrop1]
        have harith : 1 + countWhile isWordChar rest + c0 =
            (countWhile isWordChar rest + c0) + 1 := by omega
        rw [harith, List.take_succ_cons, List.take_add]
        rw [hdrop1] at hs
        rw [hs]
        simp
      · cases h
  · cases h

theorem mem_scanAllFuel {M : Type} (f : List Char → Option (M × ℕ)) :
    ∀ (fuel : ℕ) (chars : List Char) (pos : ℕ) (m : M) (p : ℕ),
      (m, p) ∈ scanAllFuel f fuel chars pos → ∃ l n, f l = some (m, n) := by
  intro fuel
  induction fuel with
  | zero =>
    intro chars pos m p h
    rw [scanAllFuel] at h
    cases h
  | succ k ih =>
    intro chars pos m p h
    cases chars with
    | nil =>
      rw [scanAllFuel] at h
      cases h
    | cons c rest =>
      rw [scanAllFuel] at h
      split at h
      · rename_i m0 n0 hf
        dsimp only at h
        rcases List.mem_cons.mp h with hEq | hTail
        · injection hEq with hm _
          subst hm
          exact ⟨c :: rest, n0, hf⟩
        · exact ih _ _ _ _ hTail
      · exact ih _ _ _ _ h

theorem extractJSX_fullMatch_contains_gt (antdSet : List String) (code : String) :
    ∀ jsx ∈ extractJSX antdSet code, jsIncludes jsx.fullMatch ">" = true := by
  intro jsx hjsx
  rw [extractJSX] at hjsx
  obtain ⟨⟨⟨tagv, fullv⟩, posv⟩, hx, rfl⟩ := List.mem_map.mp hjsx
  rw [scanAll] at hx
  obtain ⟨l, n, hl⟩ := mem_scanAllFuel matchJSXAt _ _ _ (tagv, fullv) posv hx
  have hmem : '>' ∈ fullv.data := matchJSXAt_contains_gt hl
  show jsIncludes fullv ">" = true
  rw [jsIncludes, decide_eq_true_iff]
  obtain ⟨s, t, heq⟩ := List.append_of_mem hmem
  exact ⟨s, t, by rw [heq]; simp⟩

theorem accessibilityStep_fold_no_button_warning :
    ∀ (jsxs : List JSXInfo) (acc : List ValidationWarning),
      (∀ w ∈ acc, w.message ≠ "Button without accessible label") →
      (∀ jsx ∈ jsxs, jsIncludes jsx.fullMatch ">" = true) →
      ∀ w ∈ jsxs.foldl accessibilityStep acc,
        w.message ≠ "Button without accessible label" := by
  intro jsxs
  induction jsxs with
  | nil =>
    intro acc hacc _ w hw
    exact hacc w hw
  | cons j js ih =>
    intro acc hacc hgt w hw
    rw [List.foldl_cons] at hw
    refine ih _ ?_ (fun jsx hj => hgt jsx (List.mem_cons_of_mem _ hj)) w hw
    intro w' hw'
    rw [accessibilityStep] at hw'
    have hjgt := hgt j (List.mem_cons_self _ _)
    rw [if_neg (by rw [hjgt]; simp)] at hw'
    split at hw'
    · rcases List.mem_append.mp hw' with hl | hr
      · exact hacc w' hl
      · obtain rfl := List.mem_singleton.mp hr
        simp
    · exact hacc w' hw'

/-- C9 (code bug): every JSX occurrence the validator extracts necessarily
contains `>` (both regex alternatives end by consuming one), so the
accessibility rule's Button branch — guarded by
`!jsx.fullMatch.includes('>')` — can never fire: no "Button without
accessible label" diagnostic is ever produced, for any source text; in
particular the source `<Button />`, an interactive tag with neither
`aria-label` nor text content, yields no warning at all, while the image half
of the claim does hold (`<img src="x" />` without `alt` is flagged). -/
theorem button_label_check_never_fires :
    (∀ (antdSet : List String) (code : String),
      ((accessibilityValidationRule (parseCode antdSet code)).2.1.filter
        (fun w => w.message = "Button without accessible label")) = []) ∧
    (validate fallbackAntdComponents "<Button />" {}).warnings = [] ∧
    ((validate fallbackAntdComponents "<img src=\"x\" />" {}).warnings.map
      (fun w => w.message)) = ["Image missing alt text"] := by
  refine ⟨?_, by decide, by decide⟩
  intro antdSet code
  rw [accessibilityValidationRule]
  rw [List.filter_eq_nil_iff]
  intro w hw
  simp only [decide_eq_true_eq]
  exact accessibilityStep_fold_no_button_warning (parseCode antdSet code).jsx []
    (by intro w' hw'; cases hw')
    (extractJSX_fullMatch_contains_gt antdSet code) w hw

end FigmaAntd
